import Mathlib

/-!
Verification development for the zone/road-network/agent simulation engine.

The source program is a JavaScript canvas game consisting of a zone store
(unions of painted circles, residential and road), a road-network builder
(waypoint graph extraction from road zones), a grid flood-fill connectivity
checker, and a per-agent spawn/travel/settle state machine.

Embedding conventions:
* All painted geometry is exact: circle centers/radii are rationals, waypoint
  coordinates are integers (the source rounds them with Math.round on
  creation).
* `Math.hypot` comparisons are embedded square-free: for r > 0,
  hypot(dx,dy) < r iff dx^2+dy^2 < r^2, and similarly for non-strict
  comparisons; the helpers below carry the sign guards so the equivalence
  holds for every rational r.
* The intersection-enhancement step of the network builder computes transient
  points of the form q1 + q2*sqrt(D) with q1 q2 D rational; all comparisons
  and floors of such values are decided exactly by the `qsqrt*` procedures
  below, which are proved equivalent to the corresponding real-number
  comparisons.
* `Math.random()` draws are modeled as an explicit input stream; since the
  only use of an angle draw is through (cos a, sin a), each stream element
  carries the drawn uniform value together with the exact unit vector
  (cos, sin) of the corresponding angle.
* Agent kinematics (path following with normalized direction vectors)
  genuinely produces irrational coordinates, so the per-tick movement layer
  works over ℝ; agent records are parametric in the coordinate field and all
  spawn-time computations stay in ℚ.
* Unbounded source loops (breadth-first searches over growing worklists, the
  intersection loop over a growing waypoint array) take an explicit fuel
  argument; running out of fuel is routed into the same catch branch that
  absorbs exceptions in the source's `buildRoadNetwork`.
-/

namespace Agents2

set_option maxRecDepth 100000

/-! ## Numeric helpers -/

/-- JavaScript's `Math.round`: round half toward positive infinity. -/
def jsRound (q : ℚ) : ℤ := ⌊q + 1/2⌋

/-- `Math.floor` producing a list index (clamped to 0 as `Int.toNat` does;
the source only applies it to nonnegative values). -/
def jsFloorNat (q : ℚ) : ℕ := (⌊q⌋).toNat

/-- Exact test for `Math.hypot dx dy < r` over ℚ (square-free). -/
def hypotLt (dx dy r : ℚ) : Bool :=
  decide (0 < r) && decide (dx ^ 2 + dy ^ 2 < r ^ 2)

/-- Exact test for `Math.hypot dx dy ≤ r` over ℚ (square-free). -/
def hypotLe (dx dy r : ℚ) : Bool :=
  decide (0 ≤ r) && decide (dx ^ 2 + dy ^ 2 ≤ r ^ 2)

/-- Exact integer-coordinate test for `Math.hypot dx dy < r`. -/
def hypotLtZ (dx dy r : ℤ) : Bool :=
  decide (0 < r) && decide (dx ^ 2 + dy ^ 2 < r ^ 2)

/-- Decides `a + b * sqrt D ≤ c` for rationals with `0 ≤ D`. -/
def qsqrtLe (a b D c : ℚ) : Bool :=
  let t := c - a
  if b ≤ 0 then decide (0 ≤ t) || decide (t ^ 2 ≤ b ^ 2 * D)
  else decide (0 ≤ t) && decide (b ^ 2 * D ≤ t ^ 2)

/-- Decides `a + b * sqrt D ≥ c`, by reduction to `qsqrtLe`. -/
def qsqrtGe (a b D c : ℚ) : Bool := qsqrtLe (-a) (-b) D (-c)

/-- Decides `a + b * sqrt D < c`. -/
def qsqrtLt (a b D c : ℚ) : Bool := !qsqrtGe a b D c

/-- `floor (a + b * sqrt D)` for a value known to lie in `[lo, lo + range]`:
count how many of the integers `lo+1 … lo+range` are below the value. -/
def floorAddSqrt (a b D : ℚ) (lo : ℤ) (range : ℕ) : ℤ :=
  lo + ((List.range range).filter
    (fun (j : ℕ) => qsqrtGe a b D ((lo : ℚ) + (j : ℚ) + 1))).length

/-- `Math.ceil (sqrt D / q)` for `0 ≤ D`, `0 < q`: the least `n` with
`(n*q)^2 ≥ D`, found by bounded linear search. -/
def ceilSqrtDiv (D q : ℚ) : ℕ :=
  let bound := (max 1 ⌈D / q ^ 2⌉).toNat + 1
  ((List.range (bound + 1)).filter
    (fun (n : ℕ) => decide (D ≤ ((n : ℚ) * q) ^ 2))).headD bound

/-! ## List helpers -/

/-- In-place style update of one list entry (JavaScript `l[i] = f l[i]`). -/
def listModify (l : List α) (i : ℕ) (f : α → α) : List α :=
  match l, i with
  | [], _ => []
  | x :: xs, 0 => f x :: xs
  | x :: xs, n + 1 => x :: listModify xs n f

/-- In-place style assignment of one list entry. -/
def listSet (l : List α) (i : ℕ) (a : α) : List α := listModify l i (fun _ => a)

/-- Association-list read with default (JavaScript `map.get(k) ?? dflt`). -/
def getAssoc (l : List (ℕ × β)) (k : ℕ) (dflt : β) : β :=
  match l.find? (fun p => p.1 == k) with
  | some p => p.2
  | none => dflt

/-- Association-list write (JavaScript `map.set(k, v)`). -/
def setAssoc (l : List (ℕ × β)) (k : ℕ) (v : β) : List (ℕ × β) :=
  match l with
  | [] => [(k, v)]
  | p :: rest => if p.1 = k then (k, v) :: rest else p :: setAssoc rest k v

/-- Insert `x` after every leading element `e` of the list with `le e x`. -/
def insertBy (le : α → α → Bool) (x : α) : List α → List α
  | [] => [x]
  | y :: ys => if le y x then y :: insertBy le x ys else x :: y :: ys

/-- Stable insertion sort with respect to a boolean comparator (models the
stable `Array.prototype.sort`; only the permutation property is used). -/
def insertionSortBy (le : α → α → Bool) (xs : List α) : List α :=
  xs.foldl (fun acc x => insertBy le x acc) []

/-! ## Game constants (set once in the `Game` constructor) -/

def WORLD_WIDTH : ℚ := 10000
def WORLD_HEIGHT : ℚ := 10000
def MIN_POINT_DISTANCE : ℤ := 20
def CONNECTION_RADIUS : ℚ := 60
def MAX_AGENTS_PER_ZONE : ℤ := 10
def PACKING_EFFICIENCY : ℚ := 0.8
def MIN_AGENT_DISTANCE : ℚ := 100
def PATHFINDING_STEP_SIZE : ℚ := 25
def EDGE_THRESHOLD : ℚ := 30
def MAX_PATHFINDING_ATTEMPTS : ℕ := 100

/-! ## Zones

A zone is a union of painted circles; `points` is the source's name for the
circle list.  Color fields of the source records are rendering-only and are
not part of the embedding. -/

/-- One painted circle, `{x, y, radius}`. -/
structure ZonePoint where
  x : ℚ
  y : ℚ
  radius : ℚ
deriving Repr, DecidableEq, Inhabited

inductive ZoneKind where
  | residential
  | road
deriving Repr, DecidableEq

/-- A zone: circle union of one kind. -/
structure Zone where
  type : ZoneKind
  points : List ZonePoint
deriving Repr, DecidableEq

/-- Brush selection in the build menu (the two paintable families). -/
inductive BuildType where
  | residential
  | road
deriving Repr, DecidableEq

/-- Build-mode state; of the source's record only the fields read by
`paintZone`/`eraseZone` are kept (the rest drive UI previews). -/
structure BuildMode where
  active : Bool
  selectedType : Option BuildType
  brushSize : ℚ
  lastPaint : Option (ℚ × ℚ)
deriving Repr, DecidableEq

/-- `isOnRoad`: is the point inside some circle of some road zone. -/
def isOnRoad (roadZones : List Zone) (x y : ℚ) : Bool :=
  roadZones.any (fun z => z.points.any (fun p => hypotLe (x - p.x) (y - p.y) p.radius))

/-- `isPointInZone`: is the point inside some circle of the zone. -/
def isPointInZone (pt : ℚ × ℚ) (zone : Zone) : Bool :=
  zone.points.any (fun p => hypotLe (pt.1 - p.x) (pt.2 - p.y) p.radius)

/-! ## Road network -/

/-- A waypoint of the road graph.  Coordinates are integers because every
stored waypoint is rounded with `Math.round` on creation. -/
structure Waypoint where
  id : ℕ
  x : ℤ
  y : ℤ
  roadRadius : Option ℚ := none
  segmentIndex : Option ℚ := none
  isRoadCenter : Bool := false
  isIntermediate : Bool := false
  isIntersection : Bool := false
  isApproach : Bool := false
  parentIntersection : Option ℕ := none
deriving Repr, DecidableEq, Inhabited

/-- The mutable network fields rebuilt from scratch by `buildRoadNetwork`. -/
structure NetSt where
  points : List Waypoint
  connections : List (List ℕ)
  edgePoints : List ℕ
  zoneEntries : List (ℕ × List ℕ)
deriving Repr, DecidableEq, Inhabited

/-- `this.roadNetwork`: the network data plus its dirty flag. -/
structure RoadNetwork extends NetSt where
  needsRebuild : Bool
deriving Repr, DecidableEq

/-- Adjacency list of a waypoint index (out of range reads as empty). -/
def conn (st : NetSt) (i : ℕ) : List ℕ := st.connections.getD i []

/-! ## Agents -/

inductive AgentPhase where
  | traveling_to_node
  | traveling_to_area
  | settling
  | settled
deriving Repr, DecidableEq

/-- Position of the phases in the forward order of the state machine. -/
def phaseOrder : AgentPhase → ℕ
  | .traveling_to_node => 0
  | .traveling_to_area => 1
  | .settling => 2
  | .settled => 3

/-- Lot polygon returned by `generateAdaptiveLot`/`generateCircularLot`. -/
structure LotPolygon (K : Type) where
  points : List (K × K)
  center : K × K
  area : K

/-- An agent record.  It is parametric in the coordinate field `K`: agents
are created with rational data (`K = ℚ`), while the per-tick path-following
step divides by `Math.hypot` distances and therefore lives over `K = ℝ`.
The `color` field of the source is rendering-only and dropped. -/
structure Agent (K : Type) where
  x : K
  y : K
  targetZoneIndex : ℕ
  finalPosition : K × K
  closestNodeToFinalPosition : ℤ
  pathToNode : List (ℚ × ℚ)
  pathToNodeIndex : ℕ
  phase : AgentPhase
  speed : K
  radius : ℚ
  lotPolygon : Option (LotPolygon ℝ) := none

instance : Inhabited (Agent ℚ) :=
  ⟨⟨0, 0, 0, (0, 0), -1, [], 0, .traveling_to_node, 2, 10, none⟩⟩

instance : Inhabited (Agent ℝ) :=
  ⟨⟨0, 0, 0, (0, 0), -1, [], 0, .traveling_to_node, 2, 10, none⟩⟩

/-- View of an entry of the local `existingAgents` list used by
`findFreePositionInZone`: live agents appear with all their fields, while
`spawnAgentsForZone` also pushes bare `{ finalPosition }` records.  The `x`
and `y` fields of such bare records do not exist in the source and are never
read, because the check prefers `finalPosition` whenever it is present. -/
structure PosRef where
  finalPosition : Option (ℚ × ℚ)
  x : ℚ
  y : ℚ
deriving Repr, DecidableEq

/-- The position used by the minimum-separation check:
`agent.finalPosition ? agent.finalPosition : (agent.x, agent.y)`. -/
def refPos (ref : PosRef) : ℚ × ℚ :=
  match ref.finalPosition with
  | some fp => fp
  | none => (ref.x, ref.y)

/-- View of a live agent in an `existingAgents` list. -/
def liveRef (a : Agent ℚ) : PosRef := ⟨some a.finalPosition, a.x, a.y⟩

/-- One `Math.random()` draw.  `u` is the drawn uniform value; `c` and `s`
are the exact cosine and sine of the angle `u * 2π`, carried alongside
because the embedding cannot represent them as functions of `u` inside ℚ.
They are consulted only for the draws the source feeds into
`Math.cos`/`Math.sin`. -/
structure Rnd where
  u : ℚ
  c : ℚ
  s : ℚ
deriving Repr, DecidableEq

/-- Head of the random stream (the stream is conceptually infinite; a
depleted stream yields the angle-0 draw). -/
def drawRnd (rng : List Rnd) : Rnd × List Rnd := (rng.headD ⟨0, 1, 0⟩, rng.tail)

/-! ## Game state -/

/-- The mutable state of the `Game` object that the core simulation reads and
writes (camera, mouse, performance counters and caches are rendering/UI
state and are excluded). -/
structure GameState where
  worldWidth : ℚ
  worldHeight : ℚ
  residentialZones : List Zone
  roadZones : List Zone
  buildMode : BuildMode
  needsConnectionUpdate : Bool
  roadNetwork : RoadNetwork
  agents : List (Agent ℚ)
  agentSpawnQueue : List (Agent ℚ)
  zoneConnections : List (ℕ × Bool)
  lastSpawnTime : ℚ
  spawnDelay : ℚ

/-! ## Zone store: paint and erase -/

/-- The dabbing guard shared by `paintZone` and `eraseZone`: skip when the
new sample is within 15% of the brush size of the previously recorded
position. -/
def paintSamplingSkip (bm : BuildMode) (x y : ℚ) : Bool :=
  match bm.lastPaint with
  | some lp => hypotLt (x - lp.1) (y - lp.2) (bm.brushSize * 0.15)
  | none => false

/-- Keep first occurrences, in insertion order (JavaScript `new Set(...)`). -/
def dedupFirstAux [BEq α] (seen : List α) : List α → List α
  | [] => []
  | x :: xs =>
    if seen.contains x then dedupFirstAux seen xs
    else x :: dedupFirstAux (x :: seen) xs

def dedupFirst [BEq α] (l : List α) : List α := dedupFirstAux [] l

/-- `eraseZone(x, y, forceErase)`: remove, from every zone of both kinds,
every circle whose center is strictly within the brush radius of the erase
point, delete zones left with no circles, and mark connectivity and the road
network dirty.  The descending-index `splice` loop of the source removes the
emptied zones without reordering the survivors, which is the composed
map-and-filter below.  (The zone-canvas cache invalidation is rendering-only
and not modeled.) -/
def eraseZone (g : GameState) (x y : ℚ) (forceErase : Bool) : GameState :=
  if g.buildMode.active = false then g
  else if !forceErase && paintSamplingSkip g.buildMode x y then g
  else
    let radius := g.buildMode.brushSize
    let eraseFrom := fun (zs : List Zone) =>
      (zs.map (fun z =>
        { z with points := z.points.filter (fun p => !hypotLt (x - p.x) (y - p.y) radius) })).filter
        (fun z => !z.points.isEmpty)
    { g with
      buildMode := { g.buildMode with lastPaint := some (x, y) }
      residentialZones := eraseFrom g.residentialZones
      roadZones := eraseFrom g.roadZones
      needsConnectionUpdate := true
      roadNetwork := { g.roadNetwork with needsRebuild := true } }

/-- The merge step shared verbatim by the residential and road branches of
`paintZone`: find every same-kind zone with a circle strictly within
`brushSize * 1.2` of the paint point; if none, append a fresh zone, else push
the new circle into the first match and fold the remaining matches into it
(in descending index order, as the source's `splice` loop does). -/
def paintMergeInto (zones : List Zone) (kind : ZoneKind) (x y brush : ℚ) :
    List Zone :=
  let newZonePoint : ZonePoint := ⟨x, y, brush⟩
  let mergeDistance := brush * 1.2
  let matchedIndices := (zones.enum.filter (fun p =>
    p.2.points.any (fun q => hypotLt (x - q.x) (y - q.y) mergeDistance))).map
      (fun p => p.1)
  match matchedIndices with
  | [] => zones ++ [⟨kind, [newZonePoint]⟩]
  | primaryIndex :: rest =>
    let toRemove := insertionSortBy (fun a b => decide (b ≤ a)) (dedupFirst rest)
    let zs1 := listModify zones primaryIndex
      (fun z => { z with points := z.points ++ [newZonePoint] })
    toRemove.foldl (fun zs idx =>
      match zs.get? idx with
      | some zrem =>
        (listModify zs primaryIndex
          (fun z => { z with points := z.points ++ zrem.points })).eraseIdx idx
      | none => zs) zs1

/-- `paintZone(x, y, forcePaint)`.  Residential strokes are rejected outright
when some road circle's center is strictly within the brush radius of the
paint point; road strokes first strip every residential circle whose center
is strictly within the brush radius, then merge as usual. -/
def paintZone (g : GameState) (x y : ℚ) (forcePaint : Bool) : GameState :=
  match g.buildMode.selectedType with
  | none => g
  | some ty =>
    if g.buildMode.active = false then g
    else if !forcePaint && paintSamplingSkip g.buildMode x y then g
    else
      let brush := g.buildMode.brushSize
      let g1 := { g with buildMode := { g.buildMode with lastPaint := some (x, y) } }
      match ty with
      | .residential =>
        let overlapRadius := brush
        let overlapsWithRoad := g.roadZones.any (fun z =>
          z.points.any (fun p => hypotLt (x - p.x) (y - p.y) overlapRadius))
        if overlapsWithRoad then g1
        else
          { g1 with
            residentialZones := paintMergeInto g1.residentialZones .residential x y brush
            needsConnectionUpdate := true
            roadNetwork := { g1.roadNetwork with needsRebuild := true } }
      | .road =>
        let overlapRadius := brush
        let resZones := (g1.residentialZones.map (fun z =>
          { z with points := z.points.filter (fun p => !hypotLt (x - p.x) (y - p.y) overlapRadius) })).filter
            (fun z => !z.points.isEmpty)
        { g1 with
          residentialZones := resZones
          roadZones := paintMergeInto g1.roadZones .road x y brush
          needsConnectionUpdate := true
          roadNetwork := { g1.roadNetwork with needsRebuild := true } }

/-! ## Road network builder -/

/-- The `addWaypoint` closure of `buildRoadNetwork`: round the candidate,
return the id of the first existing waypoint strictly within
`MIN_POINT_DISTANCE`, else append a fresh waypoint (its id is the running
counter, which always equals the current length) with an empty adjacency
list. -/
def addWaypoint (st : NetSt) (x y : ℚ) (roadRadius segmentIndex : Option ℚ)
    (isRoadCenter isIntermediate : Bool) : NetSt × ℕ :=
  let xr := jsRound x
  let yr := jsRound y
  match st.points.find? (fun p => hypotLtZ (xr - p.x) (yr - p.y) MIN_POINT_DISTANCE) with
  | some p => (st, p.id)
  | none =>
    let pointId := st.points.length
    ({ st with
       points := st.points ++ [{ id := pointId, x := xr, y := yr, roadRadius := roadRadius, segmentIndex := segmentIndex, isRoadCenter := isRoadCenter, isIntermediate := isIntermediate }]
       connections := st.connections ++ [[]] }, pointId)

/-- Worklist loop of `traceRoadSegment`: breadth-first clustering of the
road circles whose centers are within `CONNECTION_RADIUS` of each other. -/
def traceLoop (roadPoints : List ZonePoint) :
    ℕ → List ℕ → List ℕ → List ZonePoint → Except Unit (List ZonePoint × List ℕ)
  | _, [], processed, segment => .ok (segment, processed)
  | 0, _ :: _, _, _ => .error ()
  | f + 1, currentIndex :: rest, processed, segment =>
    if processed.contains currentIndex then
      traceLoop roadPoints f rest processed segment
    else
      let cur := roadPoints.getD currentIndex default
      let processed' := currentIndex :: processed
      let segment' := segment ++ [cur]
      let newIdxs := (List.range roadPoints.length).filter (fun i =>
        !processed'.contains i &&
          hypotLe (cur.x - (roadPoints.getD i default).x)
            (cur.y - (roadPoints.getD i default).y) CONNECTION_RADIUS)
      traceLoop roadPoints f (rest ++ newIdxs) processed' segment'

/-- `traceRoadSegment(roadPoints, startIndex, processedPoints)`. -/
def traceRoadSegment (roadPoints : List ZonePoint) (startIndex : ℕ)
    (processed : List ℕ) (fuel : ℕ) : Except Unit (List ZonePoint × List ℕ) :=
  traceLoop roadPoints fuel [startIndex] processed []

/-- Index of the closest remaining point (`closestDistance` starts at
Infinity, modeled by `none`; a strict comparison keeps the first minimum). -/
def closestRemainingIdx (last : ZonePoint) (remaining : List ZonePoint) : ℕ :=
  (remaining.enum.foldl (fun (best : ℕ × Option ℚ) p =>
    let d := (last.x - p.2.x) ^ 2 + (last.y - p.2.y) ^ 2
    match best.2 with
    | none => (p.1, some d)
    | some bd => if d < bd then (p.1, some d) else best) (0, none)).1

/-- Greedy nearest-neighbor chaining loop of `sortPointsForFlow`. -/
def sortFlowLoop : ℕ → List ZonePoint → List ZonePoint → List ZonePoint
  | 0, sorted, _ => sorted
  | _, sorted, [] => sorted
  | f + 1, sorted, remaining =>
    let last := sorted.getLastD default
    let ci := closestRemainingIdx last remaining
    sortFlowLoop f (sorted ++ [remaining.getD ci default]) (remaining.eraseIdx ci)

/-- `sortPointsForFlow`. -/
def sortPointsForFlow (points : List ZonePoint) : List ZonePoint :=
  if points.length ≤ 1 then points
  else
    match points with
    | [] => points
    | p0 :: rest => sortFlowLoop rest.length [p0] rest

/-- Evenly spaced interpolated waypoints between two consecutive segment
points more than 50 apart; each candidate is added only if it is on road.
`steps = Math.ceil(distance / 30)` is computed square-free by
`ceilSqrtDiv`. -/
def addIntermediates (roadZones : List Zone) (st : NetSt) (point nextPoint : ZonePoint)
    (i : ℕ) : NetSt :=
  let D := (nextPoint.x - point.x) ^ 2 + (nextPoint.y - point.y) ^ 2
  if decide ((50 : ℚ) * 50 < D) then
    let steps := ceilSqrtDiv D 30
    (List.range steps).foldl (fun st1 step =>
      if step = 0 then st1
      else
        let t : ℚ := (step : ℚ) / (steps : ℚ)
        let interpX := point.x + (nextPoint.x - point.x) * t
        let interpY := point.y + (nextPoint.y - point.y) * t
        if isOnRoad roadZones interpX interpY then
          (addWaypoint st1 interpX interpY (some (min point.radius nextPoint.radius))
            (some ((i : ℚ) + t)) false true).1
        else st1) st
  else st

/-- `createWaypointsForSegment`. -/
def createWaypointsForSegment (roadZones : List Zone) (st : NetSt)
    (segment : List ZonePoint) : NetSt :=
  match segment with
  | [] => st
  | _ =>
    let sortedSegment := sortPointsForFlow segment
    (List.range sortedSegment.length).foldl (fun st1 i =>
      let point := sortedSegment.getD i default
      let st2 := (addWaypoint st1 point.x point.y (some point.radius) (some (i : ℚ)) true false).1
      if i < sortedSegment.length - 1 then
        addIntermediates roadZones st2 point (sortedSegment.getD (i + 1) default) i
      else st2) st

/-- Segment-collection loop of `extractRoadCenterline`; the first argument
counts the remaining loop iterations (`roadPoints.length - i`), keeping the
recursion structural. -/
def collectSegments (roadPoints : List ZonePoint) (fuel : ℕ) :
    ℕ → ℕ → List ℕ → List (List ZonePoint) → Except Unit (List (List ZonePoint))
  | 0, _, _, acc => .ok acc
  | rem + 1, i, processed, acc =>
    if i < roadPoints.length then
      if processed.contains i then collectSegments roadPoints fuel rem (i + 1) processed acc
      else
        match traceRoadSegment roadPoints i processed fuel with
        | .error _ => .error ()
        | .ok (segment, processed') =>
          collectSegments roadPoints fuel rem (i + 1) processed'
            (if 0 < segment.length then acc ++ [segment] else acc)
    else .ok acc

/-- `extractRoadCenterline(zone, addWaypoint)`: cluster the zone's circles
into segments, then emit waypoints segment by segment.  On failure the
partially built state (unchanged by the collection phase) is surfaced for
the catch branch. -/
def extractRoadCenterline (roadZones : List Zone) (zone : Zone) (st : NetSt)
    (fuel : ℕ) : Except NetSt NetSt :=
  if zone.points.length = 0 then .ok st
  else
    match collectSegments zone.points fuel zone.points.length 0 [] [] with
    | .error _ => .error st
    | .ok segments => .ok (segments.foldl (createWaypointsForSegment roadZones) st)

/-- All-zones extraction loop of `buildRoadNetwork`. -/
def extractAllZones (allRoadZones : List Zone) (fuel : ℕ) :
    List Zone → NetSt → Except NetSt NetSt
  | [], st => .ok st
  | zone :: rest, st =>
    match extractRoadCenterline allRoadZones zone st fuel with
    | .error s => .error s
    | .ok st' => extractAllZones allRoadZones fuel rest st'

/-- `hasRoadPathBetween`: 11 evenly spaced samples of the straight segment,
all required to be on road. -/
def hasRoadPathBetween (roadZones : List Zone) (pointA pointB : Waypoint) : Bool :=
  (List.range 11).all (fun i =>
    let t : ℚ := (i : ℚ) / 10
    isOnRoad roadZones ((pointA.x : ℚ) + ((pointB.x : ℚ) - (pointA.x : ℚ)) * t)
      ((pointA.y : ℚ) + ((pointB.y : ℚ) - (pointA.y : ℚ)) * t))

/-- One candidate pair of the `connectNearbyWaypoints` double loop. -/
def connectPairStep (roadZones : List Zone) (st : NetSt) (i j : ℕ) : NetSt :=
  match st.points.get? i, st.points.get? j with
  | some pointA, some pointB =>
    if hypotLe ((pointA.x : ℚ) - (pointB.x : ℚ)) ((pointA.y : ℚ) - (pointB.y : ℚ))
        CONNECTION_RADIUS then
      if hasRoadPathBetween roadZones pointA pointB then
        if (conn st i).contains j then st
        else
          { st with connections :=
              listModify (listModify st.connections i (· ++ [j])) j (· ++ [i]) }
      else st
    else st
  | _, _ => st

/-- The pairwise connection double loop. -/
def connectPairsPass (roadZones : List Zone) (st : NetSt) : NetSt :=
  (List.range st.points.length).foldl (fun st1 i =>
    (List.range' (i + 1) (st.points.length - (i + 1))).foldl
      (fun st2 j => connectPairStep roadZones st2 i j) st1) st

/-- On-road test of `enhanceIntersection` at the approach point
`(ix - 25 dx / sqrt D, iy - 25 dy / sqrt D)`: its squared distance to a
circle center `(px, py)` expands to `A + B * sqrt D` with
`A = (ix-px)^2 + (iy-py)^2 + 625` and `B = -50((ix-px)dx + (iy-py)dy) / D`,
so `hypot ≤ r` is decided exactly by `qsqrtLe`. -/
def approachOnRoad (roadZones : List Zone) (ix iy dx dy D : ℤ) : Bool :=
  roadZones.any (fun z => z.points.any (fun p =>
    let u : ℚ := (ix : ℚ) - p.x
    let v : ℚ := (iy : ℚ) - p.y
    decide (0 ≤ p.radius) &&
      qsqrtLe (u ^ 2 + v ^ 2 + 625) (-(50 * (u * (dx : ℚ) + v * (dy : ℚ))) / (D : ℚ))
        (D : ℚ) (p.radius ^ 2)))

/-- Too-close test of `enhanceIntersection` (strictly within 15 of an
existing waypoint), decided exactly in the same way. -/
def approachTooClose (pts : List Waypoint) (ix iy dx dy D : ℤ) : Bool :=
  pts.any (fun p =>
    let u : ℚ := ((ix - p.x : ℤ) : ℚ)
    let v : ℚ := ((iy - p.y : ℤ) : ℚ)
    qsqrtLt (u ^ 2 + v ^ 2 + 625) (-(50 * (u * (dx : ℚ) + v * (dy : ℚ))) / (D : ℚ))
      (D : ℚ) 225)

/-- Append an approach waypoint (rounded coordinates of
`intersection - 25 * (dx, dy) / sqrt D`) and wire it symmetrically to the
intersection and to the connected point. -/
def pushApproach (st : NetSt) (I cid : ℕ) (ix iy dx dy D : ℤ) : NetSt :=
  let approachId := st.points.length
  let ax := floorAddSqrt ((ix : ℚ) + 1/2) (-(25 * (dx : ℚ)) / (D : ℚ)) (D : ℚ) (ix - 26) 52
  let ay := floorAddSqrt ((iy : ℚ) + 1/2) (-(25 * (dy : ℚ)) / (D : ℚ)) (D : ℚ) (iy - 26) 52
  { st with
    points := st.points ++ [{ id := approachId, x := ax, y := ay, isApproach := true, parentIntersection := some I }]
    connections :=
      listModify (listModify (st.connections ++ [[I, cid]]) I (· ++ [approachId]))
        cid (· ++ [approachId]) }

/-- The `for…of` loop of `enhanceIntersection` over the (growing) adjacency
list of the intersection; an out-of-range connection id models the
`undefined.x` TypeError of the source and is routed to the catch. -/
def enhanceLoop (roadZones : List Zone) (I : ℕ) (inter : Waypoint) :
    ℕ → ℕ → NetSt → Except NetSt NetSt
  | 0, _, st => .error st
  | f + 1, k, st =>
    if k < (conn st I).length then
      let connectionId := (conn st I).getD k 0
      match st.points.get? connectionId with
      | none => .error st
      | some connectedPoint =>
        let dx := inter.x - connectedPoint.x
        let dy := inter.y - connectedPoint.y
        let D := dx ^ 2 + dy ^ 2
        if decide (((25 : ℤ) * 2) ^ 2 < D) then
          if approachOnRoad roadZones inter.x inter.y dx dy D then
            if approachTooClose st.points inter.x inter.y dx dy D then
              enhanceLoop roadZones I inter f (k + 1) st
            else
              enhanceLoop roadZones I inter f (k + 1)
                (pushApproach st I connectionId inter.x inter.y dx dy D)
          else enhanceLoop roadZones I inter f (k + 1) st
        else enhanceLoop roadZones I inter f (k + 1) st
    else .ok st

/-- `enhanceIntersection(intersectionIndex)`: only intersections of degree at
least 4 receive approach points. -/
def enhanceIntersection (roadZones : List Zone) (st : NetSt) (I : ℕ)
    (fuel : ℕ) : Except NetSt NetSt :=
  match st.points.get? I with
  | none => .error st
  | some inter =>
    if 4 ≤ (conn st I).length then enhanceLoop roadZones I inter fuel 0 st
    else .ok st

/-- `identifyIntersections`: the index loop re-reads the (growing) waypoint
array length every iteration, so it also visits approach points appended
during the loop. -/
def identifyLoop (roadZones : List Zone) : ℕ → ℕ → NetSt → Except NetSt NetSt
  | 0, _, st => .error st
  | f + 1, i, st =>
    if i < st.points.length then
      if 3 ≤ (conn st i).length then
        let st1 := { st with points := listModify st.points i (fun p => { p with isIntersection := true }) }
        match enhanceIntersection roadZones st1 i f with
        | .error s => .error s
        | .ok st2 => identifyLoop roadZones f (i + 1) st2
      else identifyLoop roadZones f (i + 1) st
    else .ok st

/-- Class of `Math.atan2 y x` within `(-π, π]`: negative angles, zero,
positive angles below π, and π itself, in increasing order. -/
def angleClass (x y : ℤ) : ℕ :=
  if y < 0 then 0
  else if y = 0 ∧ 0 ≤ x then 1
  else if 0 < y then 2
  else 3

/-- Exact comparator for the angle sort of `optimizeIntersectionConnections`:
decides `atan2 (ya - cy) (xa - cx) ≤ atan2 (yb - cy) (xb - cx)` by angle
class and cross product (two angles in the same open half-plane compare by
the sign of their cross product). -/
def angleLE (cx cy : ℤ) (pts : List Waypoint) (a b : ℕ) : Bool :=
  let pA := pts.getD a default
  let pB := pts.getD b default
  let x1 := pA.x - cx
  let y1 := pA.y - cy
  let x2 := pB.x - cx
  let y2 := pB.y - cy
  let c1 := angleClass x1 y1
  let c2 := angleClass x2 y2
  if c1 ≠ c2 then decide (c1 < c2)
  else if c1 = 1 ∨ c1 = 3 then true
  else decide (0 ≤ x1 * y2 - y1 * x2)

/-- `optimizeIntersectionConnections`: stable-sort each intersection's
adjacency list by angle. -/
def optimizeIntersectionConnections (st : NetSt) : NetSt :=
  (List.range st.points.length).foldl (fun s i =>
    match s.points.get? i with
    | some point =>
      if point.isIntersection then
        { s with connections := listModify s.connections i (insertionSortBy (angleLE point.x point.y s.points)) }
      else s
    | none => s) st

/-- `connectNearbyWaypoints`: pairwise pass, then intersection
identification and enhancement, then the angle sort. -/
def connectNearbyWaypoints (roadZones : List Zone) (st : NetSt) (fuel : ℕ) :
    Except NetSt NetSt :=
  match identifyLoop roadZones fuel 0 (connectPairsPass roadZones st) with
  | .error s => .error s
  | .ok s => .ok (optimizeIntersectionConnections s)

/-- `identifyEdgePoints`: waypoints within `EDGE_THRESHOLD` of the world
boundary. -/
def identifyEdgePoints (st : NetSt) (worldWidth worldHeight : ℚ) : NetSt :=
  (List.range st.points.length).foldl (fun s i =>
    match s.points.get? i with
    | some point =>
      if decide ((point.x : ℚ) ≤ EDGE_THRESHOLD) || decide (worldWidth - EDGE_THRESHOLD ≤ (point.x : ℚ)) ||
          decide ((point.y : ℚ) ≤ EDGE_THRESHOLD) || decide (worldHeight - EDGE_THRESHOLD ≤ (point.y : ℚ)) then
        { s with edgePoints := s.edgePoints ++ [i] }
      else s
    | none => s) st

/-- `findZoneEntryPoints`: per residential zone, the waypoints lying in the
annulus `[radius - 20, radius + 40]` around some circle of the zone. -/
def findZoneEntryPoints (st : NetSt) (residentialZones : List Zone) : NetSt :=
  residentialZones.enum.foldl (fun s zp =>
    let entryPoints := (List.range s.points.length).filter (fun i =>
      let w := s.points.getD i default
      zp.2.points.any (fun q =>
        hypotLe ((w.x : ℚ) - q.x) ((w.y : ℚ) - q.y) (q.radius + 40) &&
          !hypotLt ((w.x : ℚ) - q.x) ((w.y : ℚ) - q.y) (q.radius - 20)))
    { s with zoneEntries := setAssoc s.zoneEntries zp.1 entryPoints }) st

/-- The body of the `try` block of `buildRoadNetwork`: clear the network,
extract centerline waypoints from every road zone, connect, classify edge
and zone-entry waypoints.  Errors carry the partially built state. -/
def buildRoadNetworkBody (g : GameState) (fuel : ℕ) : Except NetSt NetSt :=
  let st0 : NetSt := ⟨[], [], [], []⟩
  match extractAllZones g.roadZones fuel g.roadZones st0 with
  | .error s => .error s
  | .ok st1 =>
    match connectNearbyWaypoints g.roadZones st1 fuel with
    | .error s => .error s
    | .ok st2 => .ok (findZoneEntryPoints (identifyEdgePoints st2 g.worldWidth g.worldHeight) g.residentialZones)

/-- `buildRoadNetwork`: the success path clears the dirty flag at the end of
the `try` block; the catch branch logs and clears the dirty flag anyway, so
a failing rebuild is not retried until a zone edit marks it dirty again. -/
def buildRoadNetwork (g : GameState) (fuel : ℕ) : GameState :=
  match buildRoadNetworkBody g fuel with
  | .ok st => { g with roadNetwork := { toNetSt := st, needsRebuild := false } }
  | .error st => { g with roadNetwork := { toNetSt := st, needsRebuild := false } }

/-! ## Connectivity checker (grid flood fill, independent of the graph) -/

/-- `findRoadConnectionsAtEdge`: walk the four world edges at stride 50 and
collect the on-road samples, in the source's edge order (top, bottom, left,
right). -/
def findRoadConnectionsAtEdge (g : GameState) : List (ℚ × ℚ) :=
  let step : ℚ := 50
  let hscan := fun (yv : ℚ) =>
    (List.range (jsFloorNat (g.worldWidth / step) + 1)).filterMap (fun (k : ℕ) =>
      let x := step * (k : ℚ)
      if decide (x ≤ g.worldWidth) && isOnRoad g.roadZones x yv then some (x, yv) else none)
  let vscan := fun (xv : ℚ) =>
    (List.range (jsFloorNat (g.worldHeight / step) + 1)).filterMap (fun (k : ℕ) =>
      let y := step * (k : ℚ)
      if decide (y ≤ g.worldHeight) && isOnRoad g.roadZones xv y then some (xv, y) else none)
  hscan 0 ++ hscan g.worldHeight ++ vscan 0 ++ vscan g.worldWidth

/-- Grid key of a flood-fill sample (the source's string key
`floor(x/step),floor(y/step)`). -/
def gridKey (p : ℚ × ℚ) : ℤ × ℤ :=
  (⌊p.1 / PATHFINDING_STEP_SIZE⌋, ⌊p.2 / PATHFINDING_STEP_SIZE⌋)

/-- The four axis-aligned neighbors at the pathfinding stride. -/
def gridNeighbors (p : ℚ × ℚ) : List (ℚ × ℚ) :=
  [(p.1 + PATHFINDING_STEP_SIZE, p.2), (p.1 - PATHFINDING_STEP_SIZE, p.2),
   (p.1, p.2 + PATHFINDING_STEP_SIZE), (p.1, p.2 - PATHFINDING_STEP_SIZE)]

/-- BFS loop of `pathExistsToZone`.  The source loop always terminates
(visited grid keys are bounded by the world extent); fuel exhaustion is
modeled as an unsuccessful search. -/
def pathExistsLoop (g : GameState) (zone : Zone) :
    ℕ → List (ℚ × ℚ) → List (ℤ × ℤ) → Bool
  | 0, _, _ => false
  | _, [], _ => false
  | f + 1, current :: rest, visited =>
    let key := gridKey current
    if visited.contains key then pathExistsLoop g zone f rest visited
    else
      let visited' := key :: visited
      if isPointInZone current zone then true
      else
        let pushed := (gridNeighbors current).filter (fun nb =>
          decide (0 ≤ nb.1) && decide (nb.1 ≤ g.worldWidth) &&
            decide (0 ≤ nb.2) && decide (nb.2 ≤ g.worldHeight) &&
            !visited'.contains (gridKey nb) &&
            (isOnRoad g.roadZones nb.1 nb.2 || isPointInZone nb zone))
        pathExistsLoop g zone f (rest ++ pushed) visited'

/-- `pathExistsToZone(startPoint, targetZone)`. -/
def pathExistsToZone (g : GameState) (startPoint : ℚ × ℚ) (zone : Zone)
    (fuel : ℕ) : Bool :=
  pathExistsLoop g zone fuel [startPoint] []

/-- `checkZoneConnection(zoneIndex)`. -/
def checkZoneConnection (g : GameState) (fuel : ℕ) (zoneIndex : ℕ) : Bool :=
  if g.residentialZones.length ≤ zoneIndex then false
  else
    let zone := g.residentialZones.getD zoneIndex ⟨.residential, []⟩
    (findRoadConnectionsAtEdge g).any (fun startPoint => pathExistsToZone g startPoint zone fuel)

/-- BFS loop of `findPathToZone`, carrying full path copies as the source
does; `none` models fuel exhaustion, `some [startPoint]` a completed but
unsuccessful search. -/
def findPathLoop (g : GameState) (zone : Zone) (startPoint : ℚ × ℚ) :
    ℕ → List ((ℚ × ℚ) × List (ℚ × ℚ)) → List (ℤ × ℤ) → Option (List (ℚ × ℚ))
  | 0, _, _ => none
  | _, [], _ => some [startPoint]
  | f + 1, (current, path) :: rest, visited =>
    let key := gridKey current
    if visited.contains key then findPathLoop g zone startPoint f rest visited
    else
      let visited' := key :: visited
      if isPointInZone current zone then some (path ++ [current])
      else
        let pushed := ((gridNeighbors current).filter (fun nb =>
          decide (0 ≤ nb.1) && decide (nb.1 ≤ g.worldWidth) &&
            decide (0 ≤ nb.2) && decide (nb.2 ≤ g.worldHeight) &&
            !visited'.contains (gridKey nb) &&
            (isOnRoad g.roadZones nb.1 nb.2 || isPointInZone nb zone))).map
          (fun nb => (nb, path ++ [nb]))
        findPathLoop g zone startPoint f (rest ++ pushed) visited'

/-- `findPathToZone(startPoint, targetZone)`: grid BFS fallback path; when
the search exhausts without reaching the zone it returns the one-element
path `[startPoint]`. -/
def findPathToZone (g : GameState) (startPoint : ℚ × ℚ) (zone : Zone)
    (fuel : ℕ) : Option (List (ℚ × ℚ)) :=
  findPathLoop g zone startPoint fuel [(startPoint, [startPoint])] []

/-! ## Graph pathfinding used at spawn time -/

/-- Coordinates of a waypoint as a rational pair. -/
def wpPos (w : Waypoint) : ℚ × ℚ := ((w.x : ℚ), (w.y : ℚ))

/-- `findClosestNetworkPoint(x, y)`: id of the strictly closest waypoint
(first minimum wins), `-1` when the network is empty. -/
def findClosestNetworkPoint (st : NetSt) (x y : ℚ) : ℤ :=
  (st.points.enum.foldl (fun (best : ℤ × Option ℚ) p =>
    let d := (x - (p.2.x : ℚ)) ^ 2 + (y - (p.2.y : ℚ)) ^ 2
    match best.2 with
    | none => ((p.1 : ℤ), some d)
    | some bd => if d < bd then ((p.1 : ℤ), some d) else best) (-1, none)).1

/-- BFS loop of `findNetworkPathBetweenNodes`; returns the id path, `[]` when
no path exists (fuel exhaustion is also modeled as no path: the spawn code
only ever tests emptiness and falls back to the grid BFS). -/
def networkPathLoop (st : NetSt) (target : ℕ) :
    ℕ → List (ℕ × List ℕ) → List ℕ → List ℕ
  | 0, _, _ => []
  | _, [], _ => []
  | f + 1, (pointId, path) :: rest, visited =>
    if visited.contains pointId then networkPathLoop st target f rest visited
    else
      let visited' := pointId :: visited
      if pointId = target then path
      else
        let pushed := ((conn st pointId).filter (fun nb => !visited'.contains nb)).map
          (fun nb => (nb, path ++ [nb]))
        networkPathLoop st target f (rest ++ pushed) visited'

/-- `findNetworkPathBetweenNodes(startPointId, targetPointId)`: BFS over the
waypoint graph, mapping the id path back to waypoints at the end. -/
def findNetworkPathBetweenNodes (st : NetSt) (startPointId targetPointId : ℕ)
    (fuel : ℕ) : List (ℚ × ℚ) :=
  if startPointId = targetPointId then [wpPos (st.points.getD startPointId default)]
  else (networkPathLoop st targetPointId fuel [(startPointId, [startPointId])] []).map
    (fun i => wpPos (st.points.getD i default))

/-! ## Agent spawning -/

/-- `calculateMaxAgents(zone)`.  The source sums `π r²` over the zone's
circles and divides by the footprint `π · 50 · 50`; the factor π cancels
exactly in that ratio, so the embedding computes the ratio with the summed
`r²` directly.  `PACKING_EFFICIENCY = 0.8`, clamped into
`[0, MAX_AGENTS_PER_ZONE]`. -/
def calculateMaxAgents (zone : Zone) : ℤ :=
  let totalAreaOverPi := zone.points.foldl (fun acc p => acc + p.radius ^ 2) 0
  let maxAgents := ⌊totalAreaOverPi / (50 * 50) * PACKING_EFFICIENCY⌋
  max 0 (min maxAgents MAX_AGENTS_PER_ZONE)

/-- Rejection-sampling loop of `findFreePositionInZone`: pick a random
circle, a random angle (its cosine and sine come with the draw) and a random
fraction of `radius - 55`, and accept when at least `MIN_AGENT_DISTANCE`
from every reserved or settled position in `existingAgents`. -/
def findFreePositionInZoneAux (zone : Zone) (existing : List PosRef) :
    ℕ → List Rnd → Option (ℚ × ℚ) × List Rnd
  | 0, rng => (none, rng)
  | attempts + 1, rng =>
    let (r1, rng1) := drawRnd rng
    let (r2, rng2) := drawRnd rng1
    let (r3, rng3) := drawRnd rng2
    let randomPoint := zone.points.getD (jsFloorNat (r1.u * (zone.points.length : ℚ))) default
    let distance := r3.u * (randomPoint.radius - 55)
    let x := randomPoint.x + r2.c * distance
    let y := randomPoint.y + r2.s * distance
    let isFree := existing.all (fun ref =>
      !hypotLt (x - (refPos ref).1) (y - (refPos ref).2) MIN_AGENT_DISTANCE)
    if isFree then (some (x, y), rng3)
    else findFreePositionInZoneAux zone existing attempts rng3

/-- `findFreePositionInZone(zone, existingAgents)` with
`MAX_PATHFINDING_ATTEMPTS` attempts. -/
def findFreePositionInZone (zone : Zone) (existing : List PosRef)
    (rng : List Rnd) : Option (ℚ × ℚ) × List Rnd :=
  findFreePositionInZoneAux zone existing MAX_PATHFINDING_ATTEMPTS rng

/-- `findRandomEdgeConnection()`: a random network edge point if any exist
(an invalid stored id would yield `undefined`, on which the callers break —
modeled by `none`), else a random on-road boundary sample. -/
def findRandomEdgeConnection (g : GameState) (rng : List Rnd) :
    Option (ℚ × ℚ) × List Rnd :=
  if 0 < g.roadNetwork.edgePoints.length then
    let (r, rng') := drawRnd rng
    let randomEdgeId := g.roadNetwork.edgePoints.getD
      (jsFloorNat (r.u * (g.roadNetwork.edgePoints.length : ℚ))) 0
    match g.roadNetwork.points.get? randomEdgeId with
    | some p => (some (wpPos p), rng')
    | none => (none, rng')
  else
    let edgeConnections := findRoadConnectionsAtEdge g
    if edgeConnections.length = 0 then (none, rng)
    else
      let (r, rng') := drawRnd rng
      (some (edgeConnections.getD (jsFloorNat (r.u * (edgeConnections.length : ℚ))) (0, 0)), rng')

/-- The path-selection block shared verbatim by `spawnAgentsForZone` and
`updateAgentsForZone`: graph BFS between the nodes closest to the spawn
point and to the settle position, with the grid BFS as fallback when the
graph path is empty. -/
def computeSpawnPath (g : GameState) (spawnPoint finalPosition : ℚ × ℚ)
    (zone : Zone) (fuel : ℕ) : ℤ × List (ℚ × ℚ) :=
  let closestNodeToFinalPosition :=
    findClosestNetworkPoint g.roadNetwork.toNetSt finalPosition.1 finalPosition.2
  let pathToNode :=
    if 0 < g.roadNetwork.points.length then
      let startPointId := findClosestNetworkPoint g.roadNetwork.toNetSt spawnPoint.1 spawnPoint.2
      if 0 ≤ startPointId ∧ 0 ≤ closestNodeToFinalPosition then
        findNetworkPathBetweenNodes g.roadNetwork.toNetSt startPointId.toNat
          closestNodeToFinalPosition.toNat fuel
      else []
    else []
  let pathToNode2 :=
    if pathToNode.length = 0 then (findPathToZone g spawnPoint zone fuel).getD [spawnPoint]
    else pathToNode
  (closestNodeToFinalPosition, pathToNode2)

/-- The agent record built by both spawn paths (`color` dropped). -/
def mkAgentConfig (spawnPoint finalPosition : ℚ × ℚ) (zoneIndex : ℕ)
    (closestNode : ℤ) (pathToNode : List (ℚ × ℚ)) : Agent ℚ :=
  { x := spawnPoint.1, y := spawnPoint.2, targetZoneIndex := zoneIndex,
    finalPosition := finalPosition, closestNodeToFinalPosition := closestNode,
    pathToNode := pathToNode, pathToNodeIndex := 0, phase := .traveling_to_node,
    speed := 2, radius := 10 }

/-- Spawn loop of `spawnAgentsForZone`: fully specified agents are pushed
onto the spawn queue (not created live); the local `existingAgents` list
grows with bare `{ finalPosition }` records. -/
def spawnQueueLoop (zone : Zone) (zoneIndex : ℕ) (fuel : ℕ) :
    ℕ → GameState → List PosRef → List Rnd → GameState × List Rnd
  | 0, g, _, rng => (g, rng)
  | n + 1, g, existingAgents, rng =>
    let (fpOpt, rng1) := findFreePositionInZone zone existingAgents rng
    match fpOpt with
    | none => (g, rng1)
    | some finalPosition =>
      let (spOpt, rng2) := findRandomEdgeConnection g rng1
      match spOpt with
      | none => (g, rng2)
      | some spawnPoint =>
        let (closestNode, pathToNode) := computeSpawnPath g spawnPoint finalPosition zone fuel
        let agentConfig := mkAgentConfig spawnPoint finalPosition zoneIndex closestNode pathToNode
        spawnQueueLoop zone zoneIndex fuel n
          { g with agentSpawnQueue := g.agentSpawnQueue ++ [agentConfig] }
          (existingAgents ++ [⟨some finalPosition, 0, 0⟩]) rng2

/-- `spawnAgentsForZone(zoneIndex)` (the false→true connectivity reaction). -/
def spawnAgentsForZone (g : GameState) (zoneIndex : ℕ) (fuel : ℕ)
    (rng : List Rnd) : GameState × List Rnd :=
  let zone := g.residentialZones.getD zoneIndex ⟨.residential, []⟩
  let maxAgents := calculateMaxAgents zone
  let existingAgents := (g.agents.filter (fun a => a.targetZoneIndex == zoneIndex)).map liveRef
  let agentsToSpawn := maxAgents - (existingAgents.length : ℤ)
  spawnQueueLoop zone zoneIndex fuel agentsToSpawn.toNat g existingAgents rng

/-- Spawn loop of `updateAgentsForZone`: agents are created live immediately
and also appended to the local `existingAgents` list. -/
def spawnLiveLoop (zone : Zone) (zoneIndex : ℕ) (fuel : ℕ) :
    ℕ → GameState → List PosRef → List Rnd → GameState × List Rnd
  | 0, g, _, rng => (g, rng)
  | n + 1, g, existingAgents, rng =>
    let (fpOpt, rng1) := findFreePositionInZone zone existingAgents rng
    match fpOpt with
    | none => (g, rng1)
    | some finalPosition =>
      let (spOpt, rng2) := findRandomEdgeConnection g rng1
      match spOpt with
      | none => (g, rng2)
      | some spawnPoint =>
        let (closestNode, pathToNode) := computeSpawnPath g spawnPoint finalPosition zone fuel
        let agent := mkAgentConfig spawnPoint finalPosition zoneIndex closestNode pathToNode
        spawnLiveLoop zone zoneIndex fuel n
          { g with agents := g.agents ++ [agent] }
          (existingAgents ++ [liveRef agent]) rng2

/-- `updateAgentsForZone(zoneIndex)` (the stays-connected reaction): spawn
the shortfall against the count of live agents targeting the zone. -/
def updateAgentsForZone (g : GameState) (zoneIndex : ℕ) (fuel : ℕ)
    (rng : List Rnd) : GameState × List Rnd :=
  let zone := g.residentialZones.getD zoneIndex ⟨.residential, []⟩
  let maxAgents := calculateMaxAgents zone
  let existingAgents := (g.agents.filter (fun a => a.targetZoneIndex == zoneIndex)).map liveRef
  let agentsToSpawn := maxAgents - (existingAgents.length : ℤ)
  if 0 < agentsToSpawn then
    spawnLiveLoop zone zoneIndex fuel agentsToSpawn.toNat g existingAgents rng
  else (g, rng)

/-- `removeAgentsFromZone(zoneIndex)`: drop every live agent targeting the
zone (the spawn queue is not filtered). -/
def removeAgentsFromZone (g : GameState) (zoneIndex : ℕ) : GameState :=
  { g with agents := g.agents.filter (fun a => a.targetZoneIndex != zoneIndex) }

/-- `processAgentSpawnQueue()`: drain at most one queued agent once
`spawnDelay` has elapsed since the last drain. -/
def processAgentSpawnQueue (g : GameState) (currentTime : ℚ) : GameState :=
  match g.agentSpawnQueue with
  | [] => g
  | agentConfig :: rest =>
    if g.spawnDelay ≤ currentTime - g.lastSpawnTime then
      { g with
        agents := g.agents ++ [agentConfig]
        agentSpawnQueue := rest
        lastSpawnTime := currentTime }
    else g

/-- Per-zone body of `updateAllConnections`: edge-triggered reactions to the
connectivity transitions. -/
def updateConnLoop (fuel : ℕ) : List ℕ → GameState → List Rnd → GameState × List Rnd
  | [], g, rng => (g, rng)
  | i :: rest, g, rng =>
    let wasConnected := getAssoc g.zoneConnections i false
    let isConnected := checkZoneConnection g fuel i
    let g1 := { g with zoneConnections := setAssoc g.zoneConnections i isConnected }
    let next :=
      if !wasConnected && isConnected then spawnAgentsForZone g1 i fuel rng
      else if wasConnected && !isConnected then (removeAgentsFromZone g1 i, rng)
      else if isConnected then updateAgentsForZone g1 i fuel rng
      else (g1, rng)
    updateConnLoop fuel rest next.1 next.2

/-- `updateAllConnections()`. -/
def updateAllConnections (g : GameState) (fuel : ℕ) (rng : List Rnd) :
    GameState × List Rnd :=
  updateConnLoop fuel (List.range g.residentialZones.length) g rng

/-! ## Agent kinematics and lot geometry (over ℝ)

Path following divides displacement vectors by their `Math.hypot` length, so
positions leave ℚ after one diagonal step; this layer therefore works over
ℝ (with classical branching, hence `noncomputable`). -/

section Kinematics

open Classical

/-- Is the (real-valued) probe point inside some residential circle. -/
def isPositionInResidentialZone (residentialZones : List Zone) (x y : ℝ) : Prop :=
  ∃ z ∈ residentialZones, ∃ p ∈ z.points,
    Real.sqrt ((x - (p.x : ℝ)) ^ 2 + (y - (p.y : ℝ)) ^ 2) ≤ (p.radius : ℝ)

/-- Is the probe point strictly within `MIN_AGENT_DISTANCE` of some agent. -/
def isPositionOccupiedByOtherAgent (agents : List (Agent ℝ)) (x y : ℝ) : Prop :=
  ∃ a ∈ agents, Real.sqrt ((x - a.x) ^ 2 + (y - a.y) ^ 2) < (MIN_AGENT_DISTANCE : ℝ)

/-- `calculateRoadDirection(x, y)`: distance-weighted average offset to the
road circles within the sampling radius, normalized; `(0, 1)` as default. -/
noncomputable def calculateRoadDirection (roadZones : List Zone) (x y : ℝ) : ℝ × ℝ :=
  let sampleRadius : ℝ := 40
  let roadPoints := roadZones.foldl (fun acc z =>
    z.points.foldl (fun acc2 p =>
      let distance := Real.sqrt ((x - (p.x : ℝ)) ^ 2 + (y - (p.y : ℝ)) ^ 2)
      if distance ≤ sampleRadius ∧ 0 < distance then
        acc2 ++ [((p.x : ℝ), (p.y : ℝ), distance)]
      else acc2) acc) ([] : List (ℝ × ℝ × ℝ))
  if roadPoints.length = 0 then (0, 1)
  else
    let sums := roadPoints.foldl (fun (s : ℝ × ℝ) pt =>
      let weight := 1 / (pt.2.2 + 1)
      (s.1 + (pt.1 - x) * weight, s.2 + (pt.2.1 - y) * weight)) (0, 0)
    let len := Real.sqrt (sums.1 ^ 2 + sums.2 ^ 2)
    if 0 < len then (sums.1 / len, sums.2 / len) else (0, 1)

/-- `findNearestRoadSegment(x, y)`: strictly closest road circle (`none`
models the Infinity initial distance), with the local road direction at it. -/
noncomputable def findNearestRoadSegment (roadZones : List Zone) (x y : ℝ) :
    Option ZonePoint × (ℝ × ℝ) × Option ℝ :=
  let best := roadZones.foldl (fun (b : Option ZonePoint × Option ℝ) z =>
    z.points.foldl (fun (b2 : Option ZonePoint × Option ℝ) p =>
      let distance := Real.sqrt ((x - (p.x : ℝ)) ^ 2 + (y - (p.y : ℝ)) ^ 2)
      match b2.2 with
      | none => (some p, some distance)
      | some bd => if distance < bd then (some p, some distance) else b2) b)
    (none, none)
  let roadDirection := match best.1 with
    | some closestPoint =>
      calculateRoadDirection roadZones (closestPoint.x : ℝ) (closestPoint.y : ℝ)
    | none => ((0 : ℝ), (1 : ℝ))
  (best.1, roadDirection, best.2)

/-- `calculatePerpendicularDirection(roadDirection)`. -/
def calculatePerpendicularDirection (roadDirection : ℝ × ℝ) : ℝ × ℝ :=
  (-roadDirection.2, roadDirection.1)

/-- `calculateAvailableDepth`: march outward in steps of 5 while staying in
a residential zone and unoccupied, stopping at the first failure. -/
noncomputable def calculateAvailableDepth (residentialZones : List Zone)
    (agents : List (Agent ℝ)) (startX startY : ℝ) (direction : ℝ × ℝ)
    (maxDepth : ℝ) : ℝ :=
  let steps := (⌊maxDepth / 5⌋).toNat
  ((List.range steps).foldl (fun (st : ℝ × Bool) k =>
    if st.2 then st
    else
      let d : ℝ := 5 * ((k : ℝ) + 1)
      let checkX := startX + direction.1 * d
      let checkY := startY + direction.2 * d
      if isPositionInResidentialZone residentialZones checkX checkY ∧
          ¬ isPositionOccupiedByOtherAgent agents checkX checkY then
        (d, false)
      else (st.1, true)) ((0 : ℝ), false)).1

/-- `calculateAvailableWidth`: the same march along the road direction, on
both sides of the front center. -/
noncomputable def calculateAvailableWidth (residentialZones : List Zone)
    (agents : List (Agent ℝ)) (centerX centerY : ℝ) (roadDirection : ℝ × ℝ)
    (maxWidth : ℝ) : ℝ :=
  calculateAvailableDepth residentialZones agents centerX centerY roadDirection (maxWidth / 2) +
    calculateAvailableDepth residentialZones agents centerX centerY
      (-roadDirection.1, -roadDirection.2) (maxWidth / 2)

/-- `generateCircularLot(x, y, radius)`: regular 8-gon fallback lot. -/
noncomputable def generateCircularLot (x y radius : ℝ) : LotPolygon ℝ :=
  { points := (List.range 8).map (fun i =>
      let angle := Real.pi * 2 * (i : ℝ) / 8
      (x + Real.cos angle * radius, y + Real.sin angle * radius))
    center := (x, y)
    area := Real.pi * radius * radius }

/-- `generateAdaptiveLot(agent)`: quadrilateral lot anchored to the nearest
road direction, clamped into the configured bounds; circular fallback when
no road exists. -/
noncomputable def generateAdaptiveLot (residentialZones roadZones : List Zone)
    (agents : List (Agent ℝ)) (agent : Agent ℝ) : LotPolygon ℝ :=
  let roadSegment := findNearestRoadSegment roadZones agent.finalPosition.1 agent.finalPosition.2
  match roadSegment.1 with
  | none => generateCircularLot agent.finalPosition.1 agent.finalPosition.2 30
  | some _ =>
    let roadDirection := roadSegment.2.1
    let perpDirection := calculatePerpendicularDirection roadDirection
    let minLotDepth : ℝ := 25
    let maxLotDepth : ℝ := 50
    let minLotWidth : ℝ := 20
    let maxLotWidth : ℝ := 60
    let streetFrontDistance : ℝ := 5
    let streetFrontX := agent.finalPosition.1 - perpDirection.1 * streetFrontDistance
    let streetFrontY := agent.finalPosition.2 - perpDirection.2 * streetFrontDistance
    let availableDepth := calculateAvailableDepth residentialZones agents streetFrontX streetFrontY perpDirection maxLotDepth
    let lotDepth := max minLotDepth availableDepth
    let availableWidth := calculateAvailableWidth residentialZones agents streetFrontX streetFrontY roadDirection maxLotWidth
    let lotWidth := max minLotWidth availableWidth
    let halfWidth := lotWidth / 2
    let frontLeft := (streetFrontX + roadDirection.1 * halfWidth, streetFrontY + roadDirection.2 * halfWidth)
    let frontRight := (streetFrontX - roadDirection.1 * halfWidth, streetFrontY - roadDirection.2 * halfWidth)
    let backLeft := (frontLeft.1 + perpDirection.1 * lotDepth, frontLeft.2 + perpDirection.2 * lotDepth)
    let backRight := (frontRight.1 + perpDirection.1 * lotDepth, frontRight.2 + perpDirection.2 * lotDepth)
    { points := [frontLeft, frontRight, backRight, backLeft]
      center := agent.finalPosition
      area := lotWidth * lotDepth }

/-- Distance from an agent to its settle position. -/
noncomputable def distToFinal (a : Agent ℝ) : ℝ :=
  Real.sqrt ((a.finalPosition.1 - a.x) ^ 2 + (a.finalPosition.2 - a.y) ^ 2)

/-- `updateAgentTravelingToNode(agent)`: advance toward the current path
waypoint, snapping and advancing the index on arrival; an empty or exhausted
path transitions to `traveling_to_area`. -/
noncomputable def updateAgentTravelingToNode (a : Agent ℝ) : Agent ℝ :=
  if a.pathToNode.length = 0 then { a with phase := .traveling_to_area }
  else if a.pathToNode.length ≤ a.pathToNodeIndex then { a with phase := .traveling_to_area }
  else
    let targetPoint := a.pathToNode.getD a.pathToNodeIndex (0, 0)
    let dx := (targetPoint.1 : ℝ) - a.x
    let dy := (targetPoint.2 : ℝ) - a.y
    let distance := Real.sqrt (dx ^ 2 + dy ^ 2)
    if distance < a.speed then
      { a with x := (targetPoint.1 : ℝ), y := (targetPoint.2 : ℝ), pathToNodeIndex := a.pathToNodeIndex + 1 }
    else
      { a with x := a.x + dx / distance * a.speed, y := a.y + dy / distance * a.speed }

/-- `updateAgentTravelingToArea(agent)`: move straight toward the settle
position; within one speed-step, transition to `settling` (without moving
this tick). -/
noncomputable def updateAgentTravelingToArea (a : Agent ℝ) : Agent ℝ :=
  let dx := a.finalPosition.1 - a.x
  let dy := a.finalPosition.2 - a.y
  let distance := Real.sqrt (dx ^ 2 + dy ^ 2)
  if distance < a.speed then { a with phase := .settling }
  else { a with x := a.x + dx / distance * a.speed, y := a.y + dy / distance * a.speed }

/-- `updateAgentSettling(agent)`: keep moving straight; on arrival snap
exactly to the settle position, become `settled`, and compute the lot
polygon once.  `allAgents`/`i` pass the live agent list with this agent's
in-place mutation visible, as the source's shared object does. -/
noncomputable def updateAgentSettling (residentialZones roadZones : List Zone)
    (allAgents : List (Agent ℝ)) (i : ℕ) (a : Agent ℝ) : Agent ℝ :=
  let dx := a.finalPosition.1 - a.x
  let dy := a.finalPosition.2 - a.y
  let distance := Real.sqrt (dx ^ 2 + dy ^ 2)
  if distance < a.speed then
    let snapped := { a with x := a.finalPosition.1, y := a.finalPosition.2, phase := AgentPhase.settled }
    { snapped with lotPolygon := some (generateAdaptiveLot residentialZones roadZones (listSet allAgents i snapped) snapped) }
  else { a with x := a.x + dx / distance * a.speed, y := a.y + dy / distance * a.speed }

/-- The per-agent dispatch of `updateAgents` (settled agents are not
updated). -/
noncomputable def updateSingleAgent (residentialZones roadZones : List Zone)
    (allAgents : List (Agent ℝ)) (i : ℕ) (a : Agent ℝ) : Agent ℝ :=
  match a.phase with
  | .traveling_to_node => updateAgentTravelingToNode a
  | .traveling_to_area => updateAgentTravelingToArea a
  | .settling => updateAgentSettling residentialZones roadZones allAgents i a
  | .settled => a

/-- In-place iteration of `updateAgents` over the agent list: each step sees
the list with all earlier agents already updated. -/
noncomputable def updateAgentsLoop (residentialZones roadZones : List Zone) :
    ℕ → ℕ → List (Agent ℝ) → List (Agent ℝ)
  | 0, _, ags => ags
  | fuel + 1, i, ags =>
    if i < ags.length then
      updateAgentsLoop residentialZones roadZones fuel (i + 1)
        (listSet ags i (updateSingleAgent residentialZones roadZones ags i (ags.getD i default)))
    else ags

/-- `updateAgents()`: one tick of the per-agent state machine (`listSet`
keeps the length invariant, so the initial length bounds the loop). -/
noncomputable def updateAgents (residentialZones roadZones : List Zone)
    (ags : List (Agent ℝ)) : List (Agent ℝ) :=
  updateAgentsLoop residentialZones roadZones ags.length 0 ags

/-- `n` consecutive ticks of `updateAgents`. -/
noncomputable def updateAgentsIter (residentialZones roadZones : List Zone) :
    ℕ → List (Agent ℝ) → List (Agent ℝ)
  | 0, ags => ags
  | n + 1, ags => updateAgentsIter residentialZones roadZones n (updateAgents residentialZones roadZones ags)

/-- Iterated per-agent step (used to track a single agent through ticks). -/
noncomputable def stepAgentIter (residentialZones roadZones : List Zone)
    (allAgents : List (Agent ℝ)) (i : ℕ) : ℕ → Agent ℝ → Agent ℝ
  | 0, a => a
  | n + 1, a => stepAgentIter residentialZones roadZones allAgents i n
      (updateSingleAgent residentialZones roadZones allAgents i a)

end Kinematics

/-! ## Definitions used by the claim statements -/

/-- Sum of `r²` over a zone's circles: the total circle area divided by π. -/
def totalAreaOverPi (zone : Zone) : ℚ :=
  zone.points.foldl (fun acc p => acc + p.radius ^ 2) 0

/-- The capacity formula written the way the specification states it, with
the explicit π factors:
`clamp(floor(totalCircleArea / perAgentFootprintArea * packingEfficiency), 0, MAX_PER_ZONE)`
where `totalCircleArea = Σ π r²` and `perAgentFootprintArea = π · 50²`. -/
noncomputable def specMaxAgents (zone : Zone) : ℤ :=
  let totalCircleArea : ℝ := zone.points.foldl (fun acc p => acc + Real.pi * (p.radius : ℝ) ^ 2) 0
  let perAgentFootprintArea : ℝ := Real.pi * (50 : ℝ) ^ 2
  max 0 (min ⌊totalCircleArea / perAgentFootprintArea * (0.8 : ℝ)⌋ 10)

/-- Symmetric adjacency: `j ∈ connections[i] ↔ i ∈ connections[j]`. -/
def SymAdj (st : NetSt) : Prop := ∀ i j, j ∈ conn st i ↔ i ∈ conn st j

/-- Well-formed adjacency: one row per waypoint and in-range entries. -/
def WfAdj (st : NetSt) : Prop :=
  st.connections.length = st.points.length ∧
    ∀ i j, j ∈ conn st i → j < st.points.length

/-- Some two distinct waypoints are strictly closer than
`MIN_POINT_DISTANCE`. -/
def hasCloseWaypointPair (pts : List Waypoint) : Bool :=
  pts.enum.any (fun p => pts.enum.any (fun q =>
    p.1 != q.1 && hypotLtZ (p.2.x - q.2.x) (p.2.y - q.2.y) MIN_POINT_DISTANCE))

/-- Two waypoints at least `MIN_POINT_DISTANCE` apart (squared form). -/
def FarApart (p q : Waypoint) : Prop :=
  MIN_POINT_DISTANCE ^ 2 ≤ (p.x - q.x) ^ 2 + (p.y - q.y) ^ 2

/-- The amended C3 spacing property: every two waypoints of which neither is
a synthetic intersection-approach point are at least `MIN_POINT_DISTANCE`
apart. -/
def NonApproachSpaced (st : NetSt) : Prop :=
  st.points.Pairwise (fun p q =>
    p.isApproach = false → q.isApproach = false → FarApart p q)

/-- During waypoint extraction every adjacency row is still empty. -/
def InitConn (st : NetSt) : Prop :=
  st.connections = List.replicate st.points.length []

/-- Invariant of the extraction phase: empty adjacency and full pairwise
spacing (the `addWaypoint` dedup guard applies to every waypoint added
there). -/
def PhaseA (st : NetSt) : Prop := InitConn st ∧ st.points.Pairwise FarApart

/-- Invariant of the connection phase: symmetric well-formed adjacency and
spacing of the non-approach waypoints. -/
def NetInv (st : NetSt) : Prop := SymAdj st ∧ WfAdj st ∧ NonApproachSpaced st


/-- A fresh game state around given zones, build mode and network. -/
def mkState (res road : List Zone) (bm : BuildMode) (net : RoadNetwork) : GameState :=
  { worldWidth := WORLD_WIDTH, worldHeight := WORLD_HEIGHT,
    residentialZones := res, roadZones := road, buildMode := bm,
    needsConnectionUpdate := false, roadNetwork := net, agents := [],
    agentSpawnQueue := [], zoneConnections := [], lastSpawnTime := 0,
    spawnDelay := 1000 }

def emptyNet : RoadNetwork := ⟨⟨[], [], [], []⟩, true⟩

/-- A one-circle road patch used to witness the rebuild invariants. -/
def c34Start : GameState :=
  mkState [] [⟨.road, [⟨0, 0, 30⟩]⟩] ⟨false, none, 50, none⟩ emptyNet

/-- The network the rebuild of `c34Start` produces: one road-center waypoint
at the origin, which is also an edge point. -/
def c34Net : NetSt :=
  ⟨[⟨0, 0, 0, some 30, some 0, true, false, false, false, none⟩], [[]], [0], []⟩

/-- C2 example: one residential circle at (60,0) radius 50; road brush of
radius 50 about to paint at the origin. -/
def c2Start : GameState :=
  mkState [⟨.residential, [⟨60, 0, 50⟩]⟩] [] ⟨true, some .road, 50, none⟩ emptyNet

/-- C8 example: erase is attempted 1 unit away from the recorded last paint
position with brush 50. -/
def c8Start : GameState :=
  mkState [⟨.residential, [⟨1, 0, 30⟩]⟩] [] ⟨true, some .residential, 50, some (0, 0)⟩ emptyNet

/-- C3 example: a five-circle road patch whose rebuild produces a degree-4
intersection at the origin. -/
def c3Start : GameState :=
  mkState [] [⟨.road, [⟨0, 0, 30⟩, ⟨56, 0, 30⟩, ⟨25, 17, 30⟩, ⟨0, 56, 30⟩, ⟨-56, 0, 30⟩]⟩]
    ⟨false, none, 50, none⟩ emptyNet

/-- The completed rebuild of the C3 example. -/
def c3Built : Except NetSt NetSt := buildRoadNetworkBody c3Start 1000

/-- C7 example: a zone whose single circle has radius 10 (below the 55-unit
sampling offset of `findFreePositionInZone`). -/
def c7Zone : Zone := ⟨.residential, [⟨0, 0, 10⟩]⟩

/-- Draws for the C7 example: circle 0, angle 0 (unit vector (1,0)),
magnitude 1/2. -/
def c7Rng : List Rnd := [⟨0, 1, 0⟩, ⟨0, 1, 0⟩, ⟨1/2, 1, 0⟩]

/-- C7 witness zone: radius 60. -/
def c7wZone : Zone := ⟨.residential, [⟨0, 0, 60⟩]⟩

/-- Draws for the C7 witness: circle 0, angle 0, magnitude 1/5. -/
def c7wRng : List Rnd := [⟨0, 1, 0⟩, ⟨0, 1, 0⟩, ⟨1/5, 1, 0⟩]

/-- C1 example: one residential zone of two radius-60 circles 200 apart
(capacity 2), a road circle touching the world corner so the flood fill
connects the zone, and a one-waypoint network whose sole point is an edge
point. -/
def c1Start : GameState :=
  mkState [⟨.residential, [⟨0, 0, 60⟩, ⟨200, 0, 60⟩]⟩] [⟨.road, [⟨0, 0, 30⟩]⟩]
    ⟨false, none, 50, none⟩
    ⟨⟨[{ id := 0, x := 0, y := 0 }], [[]], [0], []⟩, false⟩

/-- Random draws consumed by the C1 trace (three per placement attempt, one
per edge-point pick). -/
def c1Rng : List Rnd :=
  [⟨0, 1, 0⟩, ⟨0, 1, 0⟩, ⟨1/5, 1, 0⟩, ⟨0, 1, 0⟩,
   ⟨1/2, 1, 0⟩, ⟨0, 1, 0⟩, ⟨1/5, 1, 0⟩, ⟨0, 1, 0⟩,
   ⟨1/2, 1, 0⟩, ⟨0, 1, 0⟩, ⟨1/5, 1, 0⟩, ⟨0, 1, 0⟩]

/-- The C1 trace: connectivity pass (queues two spawns), one queue drain,
a second connectivity pass while still connected (spawns one more live
agent), one more queue drain. -/
def c1Trace : GameState :=
  let s1 := updateAllConnections c1Start 1000 c1Rng
  let s2 := processAgentSpawnQueue s1.1 1000
  let s3 := updateAllConnections s2 1000 s1.2
  let s4 := processAgentSpawnQueue s3.1 2000
  s4

/-- C5 witness zone: circles of radius 25 and 50, total circle area
`π·(625 + 2500) = π·3125`, which is exactly `perAgentFootprintArea / 0.8`. -/
def c5Zone : Zone := ⟨.residential, [⟨0, 0, 25⟩, ⟨10, 10, 50⟩]⟩

/-- C10 counterexample agent: in `traveling_to_area`, 1 unit from its settle
position, speed 2. -/
noncomputable def c10CtrAgent : Agent ℝ :=
  { x := 1, y := 0, targetZoneIndex := 0, finalPosition := (0, 0),
    closestNodeToFinalPosition := -1, pathToNode := [], pathToNodeIndex := 0,
    phase := .traveling_to_area, speed := 2, radius := 10 }

/-- C10 witness agent: in `traveling_to_area`, 3 units out, speed 2. -/
noncomputable def c10WitAgent : Agent ℝ :=
  { x := 3, y := 0, targetZoneIndex := 0, finalPosition := (0, 0),
    closestNodeToFinalPosition := -1, pathToNode := [], pathToNodeIndex := 0,
    phase := .traveling_to_area, speed := 2, radius := 10 }

/-! ## General lemmas about the helpers -/

theorem hypotLt_iff (dx dy r : ℚ) :
    hypotLt dx dy r = true ↔
      Real.sqrt ((dx : ℝ) ^ 2 + (dy : ℝ) ^ 2) < (r : ℝ) := by
  unfold hypotLt
  simp only [Bool.and_eq_true, decide_eq_true_eq]
  constructor
  · rintro ⟨hr, hlt⟩
    have hr' : (0 : ℝ) < r := by exact_mod_cast hr
    have hlt' : (dx : ℝ) ^ 2 + (dy : ℝ) ^ 2 < (r : ℝ) ^ 2 := by exact_mod_cast hlt
    have := Real.sqrt_lt_sqrt (by positivity) hlt'
    calc Real.sqrt ((dx:ℝ)^2 + (dy:ℝ)^2) < Real.sqrt ((r:ℝ)^2) := this
    _ = r := by rw [Real.sqrt_sq hr'.le]
  · intro h
    have hnn : (0:ℝ) ≤ Real.sqrt ((dx:ℝ)^2 + (dy:ℝ)^2) := Real.sqrt_nonneg _
    have hr' : (0:ℝ) < r := lt_of_le_of_lt hnn h
    have h2 : (dx:ℝ)^2 + (dy:ℝ)^2 < (r:ℝ)^2 := by
      have := Real.sq_sqrt (by positivity : (0:ℝ) ≤ (dx:ℝ)^2 + (dy:ℝ)^2)
      nlinarith [Real.sqrt_nonneg ((dx:ℝ)^2 + (dy:ℝ)^2)]
    exact ⟨by exact_mod_cast hr', by exact_mod_cast h2⟩

theorem hypotLe_iff (dx dy r : ℚ) :
    hypotLe dx dy r = true ↔
      Real.sqrt ((dx : ℝ) ^ 2 + (dy : ℝ) ^ 2) ≤ (r : ℝ) := by
  unfold hypotLe
  simp only [Bool.and_eq_true, decide_eq_true_eq]
  constructor
  · rintro ⟨hr, hle⟩
    have hr' : (0 : ℝ) ≤ r := by exact_mod_cast hr
    have hle' : (dx : ℝ) ^ 2 + (dy : ℝ) ^ 2 ≤ (r : ℝ) ^ 2 := by exact_mod_cast hle
    calc Real.sqrt ((dx:ℝ)^2 + (dy:ℝ)^2) ≤ Real.sqrt ((r:ℝ)^2) :=
          Real.sqrt_le_sqrt hle'
    _ = r := by rw [Real.sqrt_sq hr']
  · intro h
    have hnn : (0:ℝ) ≤ Real.sqrt ((dx:ℝ)^2 + (dy:ℝ)^2) := Real.sqrt_nonneg _
    have hr' : (0:ℝ) ≤ r := le_trans hnn h
    have h2 : (dx:ℝ)^2 + (dy:ℝ)^2 ≤ (r:ℝ)^2 := by
      have := Real.sq_sqrt (by positivity : (0:ℝ) ≤ (dx:ℝ)^2 + (dy:ℝ)^2)
      nlinarith [Real.sqrt_nonneg ((dx:ℝ)^2 + (dy:ℝ)^2)]
    exact ⟨by exact_mod_cast hr', by exact_mod_cast h2⟩

theorem qsqrtLe_iff (a b D c : ℚ) (hD : 0 ≤ D) :
    qsqrtLe a b D c = true ↔ (a : ℝ) + (b : ℝ) * Real.sqrt (D : ℝ) ≤ (c : ℝ) := by
  have hD' : (0:ℝ) ≤ (D:ℝ) := by exact_mod_cast hD
  set s : ℝ := Real.sqrt (D:ℝ) with hs
  have hsnn : 0 ≤ s := Real.sqrt_nonneg _
  have hs2 : s ^ 2 = (D:ℝ) := Real.sq_sqrt hD'
  unfold qsqrtLe
  by_cases hb : b ≤ 0
  · simp only [hb, if_true, Bool.or_eq_true, decide_eq_true_eq]
    have hb' : (b:ℝ) ≤ 0 := by exact_mod_cast hb
    have hbs : (b:ℝ) * s ≤ 0 := mul_nonpos_of_nonpos_of_nonneg hb' hsnn
    constructor
    · rintro (ht | hsq)
      · have ht' : (0:ℝ) ≤ (c:ℝ) - a := by exact_mod_cast ht
        linarith
      · have hsq' : ((c:ℝ) - a) ^ 2 ≤ (b:ℝ) ^ 2 * D := by exact_mod_cast hsq
        -- |c - a| ≤ |b s| with b s ≤ 0; if c - a < 0 then b s ≤ c - a
        by_cases ht : (0:ℝ) ≤ (c:ℝ) - a
        · linarith
        · push_neg at ht
          nlinarith [hs2, hbs]
    · intro h
      by_cases ht : 0 ≤ c - a
      · exact Or.inl ht
      · right
        push_neg at ht
        have ht' : (c:ℝ) - a < 0 := by exact_mod_cast ht
        have hble : (b:ℝ) * s ≤ (c:ℝ) - a := by linarith
        have : ((c:ℝ) - a) ^ 2 ≤ ((b:ℝ) * s) ^ 2 := by nlinarith
        have : ((c:ℝ) - a) ^ 2 ≤ (b:ℝ) ^ 2 * D := by nlinarith [hs2]
        exact_mod_cast this
  · simp only [hb, if_false, Bool.and_eq_true, decide_eq_true_eq]
    push_neg at hb
    have hb' : (0:ℝ) < (b:ℝ) := by exact_mod_cast hb
    constructor
    · rintro ⟨ht, hsq⟩
      have ht' : (0:ℝ) ≤ (c:ℝ) - a := by exact_mod_cast ht
      have hsq' : (b:ℝ) ^ 2 * D ≤ ((c:ℝ) - a) ^ 2 := by exact_mod_cast hsq
      have hbs : 0 ≤ (b:ℝ) * s := mul_nonneg hb'.le hsnn
      nlinarith [hs2]
    · intro h
      have hbs : 0 ≤ (b:ℝ) * s := mul_nonneg hb'.le hsnn
      have ht' : (0:ℝ) ≤ (c:ℝ) - a := by linarith
      refine ⟨by exact_mod_cast ht', ?_⟩
      have : (b:ℝ) * s ≤ (c:ℝ) - a := by linarith
      have h2 : ((b:ℝ) * s) ^ 2 ≤ ((c:ℝ) - a) ^ 2 := by nlinarith
      have : (b:ℝ) ^ 2 * D ≤ ((c:ℝ) - a) ^ 2 := by nlinarith [hs2]
      exact_mod_cast this

theorem qsqrtGe_iff (a b D c : ℚ) (hD : 0 ≤ D) :
    qsqrtGe a b D c = true ↔ (c : ℝ) ≤ (a : ℝ) + (b : ℝ) * Real.sqrt (D : ℝ) := by
  unfold qsqrtGe
  rw [qsqrtLe_iff _ _ _ _ hD]
  push_cast
  constructor <;> intro h <;> linarith

theorem qsqrtLt_iff (a b D c : ℚ) (hD : 0 ≤ D) :
    qsqrtLt a b D c = true ↔ (a : ℝ) + (b : ℝ) * Real.sqrt (D : ℝ) < (c : ℝ) := by
  unfold qsqrtLt
  rw [Bool.not_eq_true', ← Bool.not_eq_true, not_iff_comm, qsqrtGe_iff _ _ _ _ hD,
    not_lt]

@[simp] theorem length_listModify (l : List α) (i : ℕ) (f : α → α) :
    (listModify l i f).length = l.length := by
  induction l generalizing i with
  | nil => rfl
  | cons x xs ih =>
    cases i with
    | zero => rfl
    | succ n => simp [listModify, ih]

@[simp] theorem length_listSet (l : List α) (i : ℕ) (a : α) :
    (listSet l i a).length = l.length := length_listModify _ _ _

theorem getD_listModify_self (l : List α) (i : ℕ) (f : α → α) (d : α)
    (h : i < l.length) :
    (listModify l i f).getD i d = f (l.getD i d) := by
  induction l generalizing i with
  | nil => simp at h
  | cons x xs ih =>
    cases i with
    | zero => rfl
    | succ n =>
      simp only [listModify, List.getD_cons_succ]
      exact ih n (by simpa using h)

theorem getD_listModify_ne (l : List α) (i j : ℕ) (f : α → α) (d : α)
    (h : i ≠ j) :
    (listModify l i f).getD j d = l.getD j d := by
  induction l generalizing i j with
  | nil => cases i <;> rfl
  | cons x xs ih =>
    cases i with
    | zero =>
      cases j with
      | zero => exact absurd rfl h
      | succ m => rfl
    | succ n =>
      cases j with
      | zero => rfl
      | succ m =>
        simp only [listModify, List.getD_cons_succ]
        exact ih n m (by omega)

theorem getD_listSet_self (l : List α) (i : ℕ) (a d : α) (h : i < l.length) :
    (listSet l i a).getD i d = a := by
  unfold listSet; rw [getD_listModify_self _ _ _ _ h]

theorem getD_listSet_ne (l : List α) (i j : ℕ) (a d : α) (h : i ≠ j) :
    (listSet l i a).getD j d = l.getD j d := getD_listModify_ne _ _ _ _ _ h

theorem insertBy_perm (le : α → α → Bool) (x : α) (l : List α) :
    (insertBy le x l).Perm (x :: l) := by
  induction l with
  | nil => exact List.Perm.refl _
  | cons y ys ih =>
    unfold insertBy
    by_cases h : le y x = true
    · simp only [h, if_true]
      exact (List.Perm.cons y ih).trans (List.Perm.swap x y ys)
    · simp only [h, if_false]
      exact List.Perm.refl _

theorem insertionSortBy_perm (le : α → α → Bool) (xs : List α) :
    (insertionSortBy le xs).Perm xs := by
  suffices h : ∀ acc : List α,
      (xs.foldl (fun acc x => insertBy le x acc) acc).Perm (acc ++ xs) by
    simpa using h []
  induction xs with
  | nil => intro acc; simp
  | cons x xs ih =>
    intro acc
    simp only [List.foldl_cons]
    have h1 := ih (insertBy le x acc)
    have h2 : (insertBy le x acc ++ xs).Perm ((x :: acc) ++ xs) :=
      List.Perm.append_right xs (insertBy_perm le x acc)
    have h3 : ((x :: acc) ++ xs).Perm (acc ++ x :: xs) :=
      (@List.perm_middle _ x acc xs).symm
    exact h1.trans (h2.trans h3)

theorem mem_insertionSortBy (le : α → α → Bool) (xs : List α) (a : α) :
    a ∈ insertionSortBy le xs ↔ a ∈ xs :=
  (insertionSortBy_perm le xs).mem_iff

/-- Fold preservation of an invariant. -/
theorem foldl_inv {P : σ → Prop} (step : σ → α → σ) (l : List α) (s : σ)
    (hs : P s) (hstep : ∀ s' a, P s' → a ∈ l → P (step s' a)) :
    P (l.foldl step s) := by
  induction l generalizing s with
  | nil => exact hs
  | cons x xs ih =>
    exact ih _ (hstep s x hs (List.mem_cons_self x xs))
      (fun s' a h ha => hstep s' a h (List.mem_cons_of_mem x ha))

/-! ## Supporting lemmas for the claim theorems -/

/-- Zones surviving an erase-style map-and-filter pass are nonempty and all
their circles pass the filter. -/
theorem mem_eraseMap {zs : List Zone} {f : ZonePoint → Bool} {z : Zone}
    (hz : z ∈ (zs.map (fun z0 => { z0 with points := z0.points.filter f })).filter
      (fun z0 => !z0.points.isEmpty)) :
    z.points ≠ [] ∧ ∀ p ∈ z.points, f p = true := by
  obtain ⟨hmem, hne⟩ := List.mem_filter.1 hz
  obtain ⟨z0, _, rfl⟩ := List.mem_map.1 hmem
  refine ⟨fun hnil => ?_, fun p hp => (List.mem_filter.1 hp).2⟩
  have hemp : List.filter f z0.points = [] := hnil
  have hne' : (!(List.filter f z0.points).isEmpty) = true := hne
  rw [hemp] at hne'
  simp at hne'

/-- A `Math.floor(random * length)` index is in range. -/
theorem jsFloorNat_lt (u : ℚ) (n : ℕ) (h0 : 0 ≤ u) (h1 : u < 1) (hn : 0 < n) :
    jsFloorNat (u * (n : ℚ)) < n := by
  unfold jsFloorNat
  have hnn : (0 : ℚ) ≤ u * (n : ℚ) := by positivity
  have hn' : (0 : ℚ) < (n : ℚ) := by exact_mod_cast hn
  have hlt : ⌊u * (n : ℚ)⌋ < (n : ℤ) := by
    apply Int.floor_lt.mpr
    push_cast
    calc u * (n : ℚ) < 1 * (n : ℚ) := mul_lt_mul_of_pos_right h1 hn'
    _ = (n : ℚ) := one_mul _
  have h0' : (0 : ℤ) ≤ ⌊u * (n : ℚ)⌋ := Int.floor_nonneg.mpr hnn
  omega

/-- Validity of a `headD` draw given validity of the stream entries and of
the default draw. -/
theorem headD_valid {P : Rnd → Prop} (l : List Rnd) (d : Rnd)
    (hl : ∀ r ∈ l, P r) (hd : P d) : P (l.headD d) := by
  cases l with
  | nil => exact hd
  | cons a t => exact hl a (List.mem_cons_self a t)

theorem tail_valid {P : Rnd → Prop} (l : List Rnd) (hl : ∀ r ∈ l, P r) :
    ∀ r ∈ l.tail, P r := fun r hr => hl r (List.mem_of_mem_tail hr)

/-- Casting the rational circle-area fold to the real π-weighted fold. -/
theorem foldl_area_cast (pts : List ZonePoint) :
    ∀ q : ℚ,
      pts.foldl (fun acc p => acc + Real.pi * (p.radius : ℝ) ^ 2) (Real.pi * (q : ℝ)) =
        Real.pi * ((pts.foldl (fun acc p => acc + p.radius ^ 2) q : ℚ) : ℝ) := by
  induction pts with
  | nil => intro q; rfl
  | cons p ps ih =>
    intro q
    simp only [List.foldl_cons]
    have h : Real.pi * (q : ℝ) + Real.pi * (p.radius : ℝ) ^ 2 =
        Real.pi * (((q + p.radius ^ 2 : ℚ) : ℝ)) := by push_cast; ring
    rw [h, ih]

/-- One unfolding step of the rejection-sampling loop. -/
theorem findFreePositionInZoneAux_succ (zone : Zone) (existing : List PosRef)
    (n : ℕ) (rng : List Rnd) :
    findFreePositionInZoneAux zone existing (n + 1) rng =
      (let r1 := rng.headD ⟨0, 1, 0⟩
       let r2 := rng.tail.headD ⟨0, 1, 0⟩
       let r3 := rng.tail.tail.headD ⟨0, 1, 0⟩
       let randomPoint := zone.points.getD (jsFloorNat (r1.u * (zone.points.length : ℚ))) default
       let distance := r3.u * (randomPoint.radius - 55)
       let x := randomPoint.x + r2.c * distance
       let y := randomPoint.y + r2.s * distance
       if existing.all (fun ref =>
          !hypotLt (x - (refPos ref).1) (y - (refPos ref).2) MIN_AGENT_DISTANCE) then
         (some (x, y), rng.tail.tail.tail)
       else findFreePositionInZoneAux zone existing n rng.tail.tail.tail) := rfl

/-! ## Claim theorems -/

/-- C9: `buildRoadNetwork` is fail-soft — it returns normally on every input
(the embedding makes it a total function whose error branch is exactly the
source's catch), and the `needsRebuild` dirty flag is `false` after the call
in both the success branch and the catch branch, so a failing rebuild is
never retried until a new zone edit sets the flag again. -/
theorem buildRoadNetwork_fail_soft (g : GameState) (fuel : ℕ) :
    (buildRoadNetwork g fuel).roadNetwork.needsRebuild = false := by
  unfold buildRoadNetwork
  cases buildRoadNetworkBody g fuel <;> rfl

/-- C5: `calculateMaxAgents` equals the specification's clamp formula
`clamp(floor(totalCircleArea / perAgentFootprintArea * 0.8), 0, 10)` stated
with the explicit π factors over ℝ (the π cancels exactly), and a zone whose
total circle area is exactly `perAgentFootprintArea / packingEfficiency`
(i.e. `Σ r² = 3125`) yields capacity exactly 1. -/
theorem calculateMaxAgents_spec (zone : Zone) :
    calculateMaxAgents zone = specMaxAgents zone ∧
      (totalAreaOverPi zone = 3125 → calculateMaxAgents zone = 1) := by
  constructor
  · have hpi := Real.pi_ne_zero
    have hfold : zone.points.foldl (fun acc p => acc + Real.pi * (p.radius : ℝ) ^ 2) 0 =
        Real.pi * ((zone.points.foldl (fun acc p => acc + p.radius ^ 2) 0 : ℚ) : ℝ) := by
      rw [← foldl_area_cast zone.points 0]
      norm_num
    have harea : Real.pi * ((zone.points.foldl (fun acc p => acc + p.radius ^ 2) 0 : ℚ) : ℝ) /
        (Real.pi * (50 : ℝ) ^ 2) * (0.8 : ℝ) =
        (((zone.points.foldl (fun acc p => acc + p.radius ^ 2) 0 : ℚ) / (50 * 50) *
          PACKING_EFFICIENCY : ℚ) : ℝ) := by
      unfold PACKING_EFFICIENCY
      push_cast
      field_simp
      ring
    simp only [calculateMaxAgents, specMaxAgents]
    rw [hfold, harea, Rat.floor_cast]
    rfl
  · intro h
    have hh : zone.points.foldl (fun acc p => acc + p.radius ^ 2) 0 = (3125 : ℚ) := h
    unfold calculateMaxAgents
    rw [hh]
    unfold PACKING_EFFICIENCY MAX_AGENTS_PER_ZONE
    norm_num

/-- C5 witness: the concrete zone `c5Zone` has `Σ r² = 3125` and capacity
exactly 1. -/
theorem calculateMaxAgents_witness :
    totalAreaOverPi c5Zone = 3125 ∧ calculateMaxAgents c5Zone = 1 :=
  ⟨by norm_num [totalAreaOverPi, c5Zone], (calculateMaxAgents_spec c5Zone).2
    (by norm_num [totalAreaOverPi, c5Zone])⟩

/-- C2 (counterexample): with overlap read as the claim reads it — centers
closer than the sum of the radii — painting a road circle of radius 50 at
the origin leaves in place the residential circle at (60, 0) of radius 50,
which overlaps the new road circle (60 < 50 + 50).  The code only removes
residential circles whose center is strictly within the brush radius. -/
theorem paintZone_sum_radii_counterexample :
    (paintZone c2Start 0 0 true).roadZones = [⟨.road, [⟨0, 0, 50⟩]⟩] ∧
      (paintZone c2Start 0 0 true).residentialZones = [⟨.residential, [⟨60, 0, 50⟩]⟩] ∧
      (((60 : ℚ) - 0) ^ 2 + ((0 : ℚ) - 0) ^ 2 < ((50 : ℚ) + 50) ^ 2) := by
  with_unfolding_all decide

/-- C2 (amended): after a committed paint, road strokes remove exactly the
residential circles whose center is strictly within the brush radius of the
paint point (none survives), and a residential stroke is rejected outright —
the zone lists are left unchanged — whenever some existing road circle's
center is strictly within the brush radius of the paint point. -/
theorem paintZone_road_precedence (g : GameState) (x y : ℚ) (forcePaint : Bool)
    (hactive : g.buildMode.active = true)
    (hcommit : forcePaint = true ∨ paintSamplingSkip g.buildMode x y = false) :
    (g.buildMode.selectedType = some .road →
      ∀ z ∈ (paintZone g x y forcePaint).residentialZones, ∀ p ∈ z.points,
        hypotLt (x - p.x) (y - p.y) g.buildMode.brushSize = false)
    ∧ (g.buildMode.selectedType = some .residential →
        (∃ z ∈ g.roadZones, ∃ p ∈ z.points,
          hypotLt (x - p.x) (y - p.y) g.buildMode.brushSize = true) →
        (paintZone g x y forcePaint).residentialZones = g.residentialZones ∧
          (paintZone g x y forcePaint).roadZones = g.roadZones) := by
  have hskip : (!forcePaint && paintSamplingSkip g.buildMode x y) = false := by
    rcases hcommit with h | h <;> simp [h]
  constructor
  · intro hsel z hz p hp
    unfold paintZone at hz
    rw [hsel] at hz
    simp only [hactive, hskip] at hz
    simp only [Bool.false_eq_true, if_false, reduceCtorEq] at hz
    have := mem_eraseMap hz
    have hback := this.2 p hp
    simpa using hback
  · intro hsel hover
    have hany : g.roadZones.any (fun z =>
        z.points.any (fun p => hypotLt (x - p.x) (y - p.y) g.buildMode.brushSize)) = true := by
      rw [List.any_eq_true]
      obtain ⟨z, hz, p, hp, hlt⟩ := hover
      exact ⟨z, hz, List.any_eq_true.mpr ⟨p, hp, hlt⟩⟩
    constructor <;>
    · unfold paintZone
      rw [hsel]
      simp only [hactive, hskip]
      simp only [Bool.false_eq_true, if_false, hany, if_true, reduceCtorEq]

/-- C2 witness: the amended road-precedence theorem applied to the concrete
state `c2Start` painting road at the origin. -/
theorem paintZone_road_precedence_witness :
    c2Start.buildMode.active = true ∧
      (c2Start.buildMode.selectedType = some .road →
        ∀ z ∈ (paintZone c2Start 0 0 true).residentialZones, ∀ p ∈ z.points,
          hypotLt ((0 : ℚ) - p.x) ((0 : ℚ) - p.y) c2Start.buildMode.brushSize = false) :=
  ⟨by with_unfolding_all decide,
    (paintZone_road_precedence c2Start 0 0 true (by with_unfolding_all decide) (Or.inl rfl)).1⟩

/-- C8 (counterexample): an `eraseZone` call with `forceErase = false` made
1 unit away from the recorded last paint position (well within the 15%
sampling distance of the brush) returns without erasing anything: the
residential circle centered exactly at the erase point, strictly within the
erase radius, is retained. -/
theorem eraseZone_sampling_counterexample :
    (eraseZone c8Start 1 0 false).residentialZones = c8Start.residentialZones ∧
      c8Start.buildMode.active = true ∧
      (∃ z ∈ c8Start.residentialZones, ∃ p ∈ z.points,
        hypotLt ((1 : ℚ) - p.x) ((0 : ℚ) - p.y) c8Start.buildMode.brushSize = true) := by
  refine ⟨by with_unfolding_all decide, by with_unfolding_all decide, ?_⟩
  refine ⟨⟨.residential, [⟨1, 0, 30⟩]⟩, by with_unfolding_all decide, ⟨1, 0, 30⟩,
    by with_unfolding_all decide, by with_unfolding_all decide⟩

/-- C8 (amended): for every erase call that commits (build mode active, and
either forced or beyond the sampling distance from the last recorded
position), afterwards no zone of either kind retains a circle whose center
is strictly within the brush radius of the erase point, and every zone whose
circle list became empty has been deleted. -/
theorem eraseZone_commit (g : GameState) (x y : ℚ) (forceErase : Bool)
    (hactive : g.buildMode.active = true)
    (hcommit : forceErase = true ∨ paintSamplingSkip g.buildMode x y = false) :
    ∀ z ∈ (eraseZone g x y forceErase).residentialZones ++
        (eraseZone g x y forceErase).roadZones,
      z.points ≠ [] ∧ ∀ p ∈ z.points,
        hypotLt (x - p.x) (y - p.y) g.buildMode.brushSize = false := by
  have hskip : (!forceErase && paintSamplingSkip g.buildMode x y) = false := by
    rcases hcommit with h | h <;> simp [h]
  intro z hz
  unfold eraseZone at hz
  simp only [hactive, hskip] at hz
  simp only [Bool.false_eq_true, if_false, reduceCtorEq] at hz
  rcases List.mem_append.1 hz with hmem | hmem <;>
  · have := mem_eraseMap hmem
    refine ⟨this.1, fun p hp => ?_⟩
    have hback := this.2 p hp
    simpa using hback

/-- C8 witness: the amended erase theorem applied to the concrete state
`c8Start` with `forceErase = true`. -/
theorem eraseZone_commit_witness :
    c8Start.buildMode.active = true ∧
      ∀ z ∈ (eraseZone c8Start 1 0 true).residentialZones ++
          (eraseZone c8Start 1 0 true).roadZones,
        z.points ≠ [] ∧ ∀ p ∈ z.points,
          hypotLt ((1 : ℚ) - p.x) ((0 : ℚ) - p.y) c8Start.buildMode.brushSize = false :=
  ⟨by with_unfolding_all decide,
    eraseZone_commit c8Start 1 0 true (by with_unfolding_all decide) (Or.inl rfl)⟩

/-- C1: the spawn-capacity accounting ignores agents still waiting in the
spawn queue.  In the concrete trace `c1Trace` — connect (queues 2 agents for
a zone of capacity 2), drain one, re-run the connectivity pass while still
connected (`updateAgentsForZone` counts only the 1 live agent and spawns 1
more live), drain the rest — the zone ends with 3 live agents targeting it
although `calculateMaxAgents` is 2. -/
theorem spawnQueue_overcount :
    (c1Trace.agents.filter (fun a => a.targetZoneIndex == 0)).length = 3 ∧
      calculateMaxAgents (c1Start.residentialZones.getD 0 ⟨.residential, []⟩) = 2 ∧
      c1Trace.agentSpawnQueue.length = 0 := by
  with_unfolding_all decide

/-- C7 (counterexample): `findFreePositionInZone` on a zone whose only
circle has radius 10 (≤ 55) returns the position (-45/2, 0), which lies in
no circle of the zone: the sampling offset `random * (radius - 55)` is
negative and larger in magnitude than the radius. -/
theorem findFreePosition_outside_counterexample :
    (findFreePositionInZone c7Zone [] c7Rng).1 = some (-45/2, 0) ∧
      isPointInZone (-45/2, 0) c7Zone = false ∧
      (∀ p ∈ c7Zone.points, p.radius ≤ 55) ∧
      (∀ r ∈ c7Rng, 0 ≤ r.u ∧ r.u < 1 ∧ r.c ^ 2 + r.s ^ 2 = 1) := by
  refine ⟨by with_unfolding_all decide, by with_unfolding_all decide, ?_, ?_⟩ <;>
    · intro p hp
      fin_cases hp <;> norm_num

/-- C7 (amended): every position returned by the rejection-sampling loop of
`findFreePositionInZone` is at least `MIN_AGENT_DISTANCE` away from the
reserved/settled position of every supplied agent; and provided every circle
of the zone has radius at least 55/2 (so that `|radius - 55| ≤ radius`) and
the supplied draws are valid (uniform values in `[0,1)`, unit direction
vectors), the returned position lies inside at least one circle of the zone.
When no position is found the function returns `none` and the spawn loops
stop spawning further agents this pass. -/
theorem findFreePositionInZone_spec (zone : Zone) (existing : List PosRef)
    (attempts : ℕ) (rng : List Rnd) (x y : ℚ)
    (hfound : (findFreePositionInZoneAux zone existing attempts rng).1 = some (x, y)) :
    (∀ ref ∈ existing,
      hypotLt (x - (refPos ref).1) (y - (refPos ref).2) MIN_AGENT_DISTANCE = false) ∧
      ((∀ p ∈ zone.points, 55 / 2 ≤ p.radius) →
        (∀ r ∈ rng, 0 ≤ r.u ∧ r.u < 1 ∧ r.c ^ 2 + r.s ^ 2 = 1) →
        zone.points ≠ [] → isPointInZone (x, y) zone = true) := by
  induction attempts generalizing rng with
  | zero => exact absurd hfound (by simp [findFreePositionInZoneAux])
  | succ n ih =>
    rw [findFreePositionInZoneAux_succ] at hfound
    by_cases hfree : (existing.all (fun ref =>
        !hypotLt ((zone.points.getD (jsFloorNat ((rng.headD ⟨0, 1, 0⟩).u * (zone.points.length : ℚ))) default).x +
            (rng.tail.headD ⟨0, 1, 0⟩).c *
              ((rng.tail.tail.headD ⟨0, 1, 0⟩).u *
                ((zone.points.getD (jsFloorNat ((rng.headD ⟨0, 1, 0⟩).u * (zone.points.length : ℚ))) default).radius - 55)) -
            (refPos ref).1)
          ((zone.points.getD (jsFloorNat ((rng.headD ⟨0, 1, 0⟩).u * (zone.points.length : ℚ))) default).y +
            (rng.tail.headD ⟨0, 1, 0⟩).s *
              ((rng.tail.tail.headD ⟨0, 1, 0⟩).u *
                ((zone.points.getD (jsFloorNat ((rng.headD ⟨0, 1, 0⟩).u * (zone.points.length : ℚ))) default).radius - 55)) -
            (refPos ref).2)
          MIN_AGENT_DISTANCE)) = true
    · simp only [hfree, if_true] at hfound
      have hxy := Option.some.inj hfound
      rw [Prod.mk.injEq] at hxy
      obtain ⟨hX, hY⟩ := hxy
      subst hX
      subst hY
      constructor
      · intro ref href
        have hall := List.all_eq_true.1 hfree ref href
        rw [Bool.not_eq_true'] at hall
        exact hall
      · intro hrad hvalid hne
        set r1 := rng.headD ⟨0, 1, 0⟩ with hr1def
        set r2 := rng.tail.headD ⟨0, 1, 0⟩ with hr2def
        set r3 := rng.tail.tail.headD ⟨0, 1, 0⟩ with hr3def
        have hv1 : 0 ≤ r1.u ∧ r1.u < 1 ∧ r1.c ^ 2 + r1.s ^ 2 = 1 :=
          headD_valid rng _ hvalid (by norm_num)
        have hv2 : 0 ≤ r2.u ∧ r2.u < 1 ∧ r2.c ^ 2 + r2.s ^ 2 = 1 :=
          headD_valid rng.tail _ (tail_valid rng hvalid) (by norm_num)
        have hv3 : 0 ≤ r3.u ∧ r3.u < 1 ∧ r3.c ^ 2 + r3.s ^ 2 = 1 :=
          headD_valid rng.tail.tail _ (tail_valid rng.tail (tail_valid rng hvalid)) (by norm_num)
        have hlen : 0 < zone.points.length := List.length_pos.mpr hne
        have hidx : jsFloorNat (r1.u * (zone.points.length : ℚ)) < zone.points.length :=
          jsFloorNat_lt r1.u zone.points.length hv1.1 hv1.2.1 hlen
        set rp := zone.points.getD (jsFloorNat (r1.u * (zone.points.length : ℚ))) default with hrpdef
        have hmem : rp ∈ zone.points := by
          rw [hrpdef, List.getD_eq_getElem zone.points default hidx]
          exact List.getElem_mem _
        have hrp : 55 / 2 ≤ rp.radius := hrad rp hmem
        unfold isPointInZone
        rw [List.any_eq_true]
        refine ⟨rp, hmem, ?_⟩
        unfold hypotLe
        rw [Bool.and_eq_true, decide_eq_true_eq, decide_eq_true_eq]
        have hdx : rp.x + r2.c * (r3.u * (rp.radius - 55)) - rp.x =
            r2.c * (r3.u * (rp.radius - 55)) := by ring
        have hdy : rp.y + r2.s * (r3.u * (rp.radius - 55)) - rp.y =
            r2.s * (r3.u * (rp.radius - 55)) := by ring
        constructor
        · linarith
        · rw [hdx, hdy]
          have hsq : (r2.c * (r3.u * (rp.radius - 55))) ^ 2 +
              (r2.s * (r3.u * (rp.radius - 55))) ^ 2 =
              (r2.c ^ 2 + r2.s ^ 2) * (r3.u * (rp.radius - 55)) ^ 2 := by ring
          rw [hsq, hv2.2.2, one_mul]
          have hu3 : r3.u ^ 2 ≤ 1 := by nlinarith [hv3.1, hv3.2.1]
          nlinarith [sq_nonneg (rp.radius - 55), hv3.1, hv3.2.1, hrp]
    · rw [Bool.not_eq_true] at hfree
      simp only [hfree, Bool.false_eq_true, if_false] at hfound
      have := ih rng.tail.tail.tail hfound
      refine ⟨this.1, fun hrad hvalid hne => this.2 hrad
        (tail_valid rng.tail.tail (tail_valid rng.tail (tail_valid rng hvalid))) hne⟩

/-- C7 witness: the amended theorem applied to the concrete radius-60 zone
and draws that return the position (1, 0). -/
theorem findFreePositionInZone_spec_witness :
    (findFreePositionInZoneAux c7wZone [] 100 c7wRng).1 = some (1, 0) ∧
      isPointInZone (1, 0) c7wZone = true :=
  ⟨by with_unfolding_all decide,
    (findFreePositionInZone_spec c7wZone [] 100 c7wRng 1 0 (by with_unfolding_all decide)).2
      (by intro p hp; fin_cases hp; norm_num)
      (by intro r hr; fin_cases hr <;> norm_num)
      (by with_unfolding_all decide)⟩

/-- Phase monotonicity of a single agent step. -/
theorem phaseOrder_le_updateSingleAgent (residentialZones roadZones : List Zone)
    (allAgents : List (Agent ℝ)) (i : ℕ) (a : Agent ℝ) :
    phaseOrder a.phase ≤
      phaseOrder (updateSingleAgent residentialZones roadZones allAgents i a).phase := by
  cases hph : a.phase with
  | traveling_to_node =>
    simp only [updateSingleAgent, hph, updateAgentTravelingToNode]
    split
    · simp [phaseOrder]
    · split
      · simp [phaseOrder]
      · split <;> simp [phaseOrder, hph]
  | traveling_to_area =>
    simp only [updateSingleAgent, hph, updateAgentTravelingToArea]
    split <;> simp [phaseOrder, hph]
  | settling =>
    simp only [updateSingleAgent, hph, updateAgentSettling]
    split <;> simp [phaseOrder, hph]
  | settled => simp [updateSingleAgent, hph]

/-- Length preservation of the agent update loop. -/
theorem updateAgentsLoop_length (residentialZones roadZones : List Zone)
    (fuel : ℕ) : ∀ (i : ℕ) (ags : List (Agent ℝ)),
    (updateAgentsLoop residentialZones roadZones fuel i ags).length = ags.length := by
  induction fuel with
  | zero => intro i ags; rfl
  | succ f ih =>
    intro i ags
    rw [updateAgentsLoop]
    split
    · rw [ih, length_listSet]
    · rfl

/-- Phase monotonicity of the agent update loop, at every list position. -/
theorem updateAgentsLoop_phase_mono (residentialZones roadZones : List Zone)
    (fuel : ℕ) : ∀ (i : ℕ) (ags : List (Agent ℝ)) (j : ℕ),
    phaseOrder ((ags.getD j default).phase) ≤
      phaseOrder (((updateAgentsLoop residentialZones roadZones fuel i ags).getD j default).phase) := by
  induction fuel with
  | zero => intro i ags j; exact le_refl _
  | succ f ih =>
    intro i ags j
    rw [updateAgentsLoop]
    split
    · refine le_trans ?_ (ih (i + 1) _ j)
      by_cases hji : i = j
      · subst hji
        rw [getD_listSet_self _ _ _ _ (by assumption)]
        exact phaseOrder_le_updateSingleAgent residentialZones roadZones ags i _
      · rw [getD_listSet_ne _ _ _ _ _ hji]
    · exact le_refl _

/-- C6: across any number of simulation ticks, an agent's phase never moves
backward in the order `traveling_to_node, traveling_to_area, settling,
settled`: after `n` ticks of `updateAgents` the phase at every list position
is at least its previous phase in that order, and the agent list keeps its
length (agents are only mutated in place by the tick; removal and spawning
happen in the connectivity reactions, which never change a surviving agent's
phase field). -/
theorem agentPhase_monotone (residentialZones roadZones : List Zone)
    (ags : List (Agent ℝ)) (n j : ℕ) :
    phaseOrder ((ags.getD j default).phase) ≤
      phaseOrder (((updateAgentsIter residentialZones roadZones n ags).getD j default).phase) ∧
      (updateAgentsIter residentialZones roadZones n ags).length = ags.length := by
  induction n generalizing ags with
  | zero => exact ⟨le_refl _, rfl⟩
  | succ m ih =>
    have hstep := updateAgentsLoop_phase_mono residentialZones roadZones ags.length 0 ags j
    have hlen := updateAgentsLoop_length residentialZones roadZones ags.length 0 ags
    have hiter := ih (updateAgents residentialZones roadZones ags)
    refine ⟨le_trans hstep hiter.1, ?_⟩
    rw [show updateAgentsIter residentialZones roadZones (m + 1) ags =
      updateAgentsIter residentialZones roadZones m (updateAgents residentialZones roadZones ags) from rfl]
    rw [hiter.2]
    exact hlen

/-- A movement step toward the settle position shortens the distance by
exactly the speed. -/
theorem distToFinal_moveStep (a : Agent ℝ) (hs : 0 < a.speed)
    (hd : a.speed ≤ distToFinal a) :
    distToFinal { a with
      x := a.x + (a.finalPosition.1 - a.x) /
        Real.sqrt ((a.finalPosition.1 - a.x) ^ 2 + (a.finalPosition.2 - a.y) ^ 2) * a.speed
      y := a.y + (a.finalPosition.2 - a.y) /
        Real.sqrt ((a.finalPosition.1 - a.x) ^ 2 + (a.finalPosition.2 - a.y) ^ 2) * a.speed } =
    distToFinal a - a.speed := by
  have hdpos : 0 < distToFinal a := lt_of_lt_of_le hs hd
  unfold distToFinal at hd hdpos ⊢
  set d := Real.sqrt ((a.finalPosition.1 - a.x) ^ 2 + (a.finalPosition.2 - a.y) ^ 2) with hddef
  have hdne : d ≠ 0 := ne_of_gt hdpos
  have hsq : d ^ 2 = (a.finalPosition.1 - a.x) ^ 2 + (a.finalPosition.2 - a.y) ^ 2 :=
    Real.sq_sqrt (by positivity)
  have hkey : (a.finalPosition.1 - (a.x + (a.finalPosition.1 - a.x) / d * a.speed)) ^ 2 +
      (a.finalPosition.2 - (a.y + (a.finalPosition.2 - a.y) / d * a.speed)) ^ 2 =
      ((d - a.speed) / d) ^ 2 * ((a.finalPosition.1 - a.x) ^ 2 + (a.finalPosition.2 - a.y) ^ 2) := by
    field_simp
    ring
  rw [hkey, ← hsq]
  have h2 : ((d - a.speed) / d) ^ 2 * d ^ 2 = (d - a.speed) ^ 2 := by field_simp
  rw [h2, Real.sqrt_sq (by linarith)]

/-- The within-one-step transition of `updateAgentTravelingToArea` changes
only the phase. -/
theorem updateAgentTravelingToArea_transition (a : Agent ℝ)
    (hd : distToFinal a < a.speed) :
    updateAgentTravelingToArea a = { a with phase := .settling } := by
  unfold updateAgentTravelingToArea
  dsimp only
  split
  · rfl
  · next h => exact absurd hd h

/-- The movement branch of `updateAgentTravelingToArea`. -/
theorem updateAgentTravelingToArea_move (a : Agent ℝ) (hs : 0 < a.speed)
    (hd : a.speed ≤ distToFinal a) :
    distToFinal (updateAgentTravelingToArea a) = distToFinal a - a.speed ∧
      (updateAgentTravelingToArea a).phase = a.phase ∧
      (updateAgentTravelingToArea a).speed = a.speed := by
  unfold updateAgentTravelingToArea
  dsimp only
  split
  · next h => exact absurd h (not_lt.mpr hd)
  · exact ⟨distToFinal_moveStep a hs hd, rfl, rfl⟩

/-- The arrival branch of `updateAgentSettling` snaps exactly to the settle
position and settles. -/
theorem updateAgentSettling_arrive (residentialZones roadZones : List Zone)
    (allAgents : List (Agent ℝ)) (i : ℕ) (a : Agent ℝ)
    (hd : distToFinal a < a.speed) :
    (updateAgentSettling residentialZones roadZones allAgents i a).x = a.finalPosition.1 ∧
      (updateAgentSettling residentialZones roadZones allAgents i a).y = a.finalPosition.2 ∧
      (updateAgentSettling residentialZones roadZones allAgents i a).phase = .settled := by
  unfold updateAgentSettling
  dsimp only
  split
  · exact ⟨rfl, rfl, rfl⟩
  · next h => exact absurd hd h

/-- The movement branch of `updateAgentSettling`. -/
theorem updateAgentSettling_move (residentialZones roadZones : List Zone)
    (allAgents : List (Agent ℝ)) (i : ℕ) (a : Agent ℝ) (hs : 0 < a.speed)
    (hd : a.speed ≤ distToFinal a) :
    distToFinal (updateAgentSettling residentialZones roadZones allAgents i a) =
        distToFinal a - a.speed ∧
      (updateAgentSettling residentialZones roadZones allAgents i a).phase = a.phase ∧
      (updateAgentSettling residentialZones roadZones allAgents i a).speed = a.speed := by
  unfold updateAgentSettling
  dsimp only
  split
  · next h => exact absurd h (not_lt.mpr hd)
  · exact ⟨distToFinal_moveStep a hs hd, rfl, rfl⟩

/-- An agent in the straight-line phases settles after finitely many steps:
strong induction on the number of whole speed-steps left. -/
theorem settles_within (residentialZones roadZones : List Zone)
    (allAgents : List (Agent ℝ)) (i : ℕ) :
    ∀ (k : ℕ) (a : Agent ℝ), 0 < a.speed →
      (a.phase = .traveling_to_area ∨ a.phase = .settling) →
      distToFinal a < (k : ℝ) * a.speed →
      ∃ n, (stepAgentIter residentialZones roadZones allAgents i n a).phase = .settled := by
  intro k
  induction k with
  | zero =>
    intro a hs hph hd
    have h0 : (0 : ℝ) ≤ distToFinal a := by unfold distToFinal; positivity
    rw [Nat.cast_zero, zero_mul] at hd
    linarith
  | succ m ih =>
    intro a hs hph hd
    by_cases hlt : distToFinal a < a.speed
    · rcases hph with hph | hph
      · refine ⟨2, ?_⟩
        have h1 : updateSingleAgent residentialZones roadZones allAgents i a =
            { a with phase := .settling } := by
          simp only [updateSingleAgent, hph]
          exact updateAgentTravelingToArea_transition a hlt
        have h2 : distToFinal ({ a with phase := AgentPhase.settling } : Agent ℝ) = distToFinal a := rfl
        have h3 : (updateAgentSettling residentialZones roadZones allAgents i
            ({ a with phase := AgentPhase.settling } : Agent ℝ)).phase = .settled :=
          (updateAgentSettling_arrive residentialZones roadZones allAgents i _
            (by rw [h2]; exact hlt)).2.2
        show (stepAgentIter residentialZones roadZones allAgents i 1
          (updateSingleAgent residentialZones roadZones allAgents i a)).phase = .settled
        rw [h1]
        show (updateSingleAgent residentialZones roadZones allAgents i
          ({ a with phase := AgentPhase.settling } : Agent ℝ)).phase = .settled
        simp only [updateSingleAgent]
        exact h3
      · refine ⟨1, ?_⟩
        show (updateSingleAgent residentialZones roadZones allAgents i a).phase = .settled
        simp only [updateSingleAgent, hph]
        exact (updateAgentSettling_arrive residentialZones roadZones allAgents i a hlt).2.2
    · push_neg at hlt
      rcases hph with hph | hph
      · have hmv := updateAgentTravelingToArea_move a hs hlt
        obtain ⟨n, hn⟩ := ih (updateAgentTravelingToArea a)
          (by rw [hmv.2.2]; exact hs) (Or.inl (by rw [hmv.2.1]; exact hph))
          (by rw [hmv.1, hmv.2.2]; push_cast at hd ⊢; linarith)
        refine ⟨n + 1, ?_⟩
        show (stepAgentIter residentialZones roadZones allAgents i n
          (updateSingleAgent residentialZones roadZones allAgents i a)).phase = .settled
        rw [show updateSingleAgent residentialZones roadZones allAgents i a =
          updateAgentTravelingToArea a by simp only [updateSingleAgent, hph]]
        exact hn
      · have hmv := updateAgentSettling_move residentialZones roadZones allAgents i a hs hlt
        obtain ⟨n, hn⟩ := ih (updateAgentSettling residentialZones roadZones allAgents i a)
          (by rw [hmv.2.2]; exact hs) (Or.inr (by rw [hmv.2.1]; exact hph))
          (by rw [hmv.1, hmv.2.2]; push_cast at hd ⊢; linarith)
        refine ⟨n + 1, ?_⟩
        show (stepAgentIter residentialZones roadZones allAgents i n
          (updateSingleAgent residentialZones roadZones allAgents i a)).phase = .settled
        rw [show updateSingleAgent residentialZones roadZones allAgents i a =
          updateAgentSettling residentialZones roadZones allAgents i a by
            simp only [updateSingleAgent, hph]]
        exact hn

/-- The grid BFS of `findPathToZone` never produces an empty path. -/
theorem findPathLoop_ne_nil (g : GameState) (zone : Zone) (startPoint : ℚ × ℚ) :
    ∀ (fuel : ℕ) (queue : List ((ℚ × ℚ) × List (ℚ × ℚ)))
      (visited : List (ℤ × ℤ)) (p : List (ℚ × ℚ)),
      findPathLoop g zone startPoint fuel queue visited = some p → p ≠ [] := by
  intro fuel
  induction fuel with
  | zero => intro queue visited p h; exact absurd h (by simp [findPathLoop])
  | succ f ih =>
    intro queue visited p h
    match queue with
    | [] =>
      simp only [findPathLoop] at h
      have := Option.some.inj h
      subst this
      simp
    | (current, path) :: rest =>
      simp only [findPathLoop] at h
      split at h
      · exact ih rest visited p h
      · split at h
        · have := Option.some.inj h
          subst this
          simp
        · exact ih _ _ p h

/-- C10 (counterexample): an agent in `traveling_to_area` strictly closer
than one speed-step to its settle position does not move at all on the
transition tick — `updateAgentTravelingToArea` only changes the phase to
`settling` — so the distance does not strictly decrease by the speed on
every tick in these phases. -/
theorem area_transition_no_move_counterexample :
    (updateAgentTravelingToArea c10CtrAgent).x = c10CtrAgent.x ∧
      (updateAgentTravelingToArea c10CtrAgent).y = c10CtrAgent.y ∧
      (updateAgentTravelingToArea c10CtrAgent).phase = .settling ∧
      c10CtrAgent.phase = .traveling_to_area ∧
      distToFinal c10CtrAgent = 1 ∧ c10CtrAgent.speed = 2 := by
  have hd : distToFinal c10CtrAgent = 1 := by
    unfold distToFinal c10CtrAgent
    norm_num
  have htr := updateAgentTravelingToArea_transition c10CtrAgent
    (by rw [hd]; show (1 : ℝ) < c10CtrAgent.speed; unfold c10CtrAgent; norm_num)
  rw [htr]
  refine ⟨rfl, rfl, rfl, rfl, hd, rfl⟩

/-- C10 (amended): in `traveling_to_area`/`settling`, every movement tick
(distance at least one speed-step) moves the agent straight toward its
settle position shortening the distance by exactly the speed with no
on-road or in-zone check; the `traveling_to_area` transition tick changes
only the phase (the position is unchanged, so the distance does not shrink
on that tick); the `settling` arrival tick snaps exactly onto the settle
position and settles; consequently every such agent with positive speed
settles after finitely many steps; and the grid fallback `findPathToZone`
never returns an empty path (an exhausted search yields `[startPoint]`). -/
theorem agent_kinematics_spec (residentialZones roadZones : List Zone)
    (allAgents : List (Agent ℝ)) (i : ℕ) (a : Agent ℝ) :
    (0 < a.speed → a.speed ≤ distToFinal a →
      distToFinal (updateAgentTravelingToArea a) = distToFinal a - a.speed)
    ∧ (0 < a.speed → a.speed ≤ distToFinal a →
        distToFinal (updateAgentSettling residentialZones roadZones allAgents i a) =
          distToFinal a - a.speed)
    ∧ (distToFinal a < a.speed →
        updateAgentTravelingToArea a = { a with phase := .settling })
    ∧ (distToFinal a < a.speed →
        (updateAgentSettling residentialZones roadZones allAgents i a).x = a.finalPosition.1 ∧
          (updateAgentSettling residentialZones roadZones allAgents i a).y = a.finalPosition.2 ∧
          (updateAgentSettling residentialZones roadZones allAgents i a).phase = .settled)
    ∧ (0 < a.speed → (a.phase = .traveling_to_area ∨ a.phase = .settling) →
        ∃ n, (stepAgentIter residentialZones roadZones allAgents i n a).phase = .settled)
    ∧ (∀ (g : GameState) (sp : ℚ × ℚ) (zone : Zone) (fuel : ℕ) (p : List (ℚ × ℚ)),
        findPathToZone g sp zone fuel = some p → p ≠ []) := by
  refine ⟨fun hs hd => (updateAgentTravelingToArea_move a hs hd).1,
    fun hs hd => (updateAgentSettling_move residentialZones roadZones allAgents i a hs hd).1,
    updateAgentTravelingToArea_transition a,
    updateAgentSettling_arrive residentialZones roadZones allAgents i a,
    fun hs hph => ?_,
    fun g sp zone fuel p h => findPathLoop_ne_nil g zone sp fuel _ _ p h⟩
  obtain ⟨k, hk⟩ := exists_nat_gt (distToFinal a / a.speed)
  have hd : distToFinal a < (k : ℝ) * a.speed := by
    rw [div_lt_iff₀ hs] at hk
    linarith
  exact settles_within residentialZones roadZones allAgents i k a hs hph hd

/-- C10 witness: the amended theorem applied to the concrete agent
`c10WitAgent` (3 units out, speed 2): the movement tick shortens the
distance to exactly 1. -/
theorem agent_kinematics_spec_witness :
    (0 : ℝ) < c10WitAgent.speed ∧ c10WitAgent.speed ≤ distToFinal c10WitAgent ∧
      distToFinal (updateAgentTravelingToArea c10WitAgent) =
        distToFinal c10WitAgent - c10WitAgent.speed := by
  have hd : distToFinal c10WitAgent = 3 := by
    unfold distToFinal c10WitAgent
    rw [show ((0, 0) : ℝ × ℝ).1 - (3 : ℝ) = -3 by norm_num]
    rw [show ((0, 0) : ℝ × ℝ).2 - (0 : ℝ) = 0 by norm_num]
    rw [show (-3 : ℝ) ^ 2 + (0 : ℝ) ^ 2 = 3 ^ 2 by norm_num]
    exact Real.sqrt_sq (by norm_num)
  have hs : (0 : ℝ) < c10WitAgent.speed := by unfold c10WitAgent; norm_num
  have hle : c10WitAgent.speed ≤ distToFinal c10WitAgent := by
    rw [hd]; show c10WitAgent.speed ≤ (3 : ℝ); unfold c10WitAgent; norm_num
  exact ⟨hs, hle,
    (agent_kinematics_spec [] [] [] 0 c10WitAgent).1 hs hle⟩

/-- C3 (counterexample): the rebuild of the concrete road patch `c3Start`
completes (the match yields `false` on the error branch) and its final
waypoint array contains two distinct waypoints strictly closer than
`MIN_POINT_DISTANCE`: the approach waypoint placed at (25, 0) by
`enhanceIntersection` — whose too-close guard only enforces a distance of
15 — lies 17 units from the road-center waypoint at (25, 17). -/
theorem waypoint_spacing_counterexample :
    (match c3Built with
      | .ok st => hasCloseWaypointPair st.points
      | .error _ => false) = true := by
  with_unfolding_all decide

/-- Every element of a modified list is an old element or the image of one. -/
theorem mem_listModify {l : List α} {i : ℕ} {f : α → α} {b : α}
    (hb : b ∈ listModify l i f) : ∃ a ∈ l, b = a ∨ b = f a := by
  induction l generalizing i with
  | nil => simp [listModify] at hb
  | cons x xs ih =>
    cases i with
    | zero =>
      simp only [listModify] at hb
      rcases List.mem_cons.mp hb with rfl | hmem
      · exact ⟨x, List.mem_cons_self x xs, Or.inr rfl⟩
      · exact ⟨b, List.mem_cons_of_mem x hmem, Or.inl rfl⟩
    | succ n =>
      simp only [listModify] at hb
      rcases List.mem_cons.mp hb with rfl | hmem
      · exact ⟨b, List.mem_cons_self b xs, Or.inl rfl⟩
      · obtain ⟨a, ha, h'⟩ := ih hmem
        exact ⟨a, List.mem_cons_of_mem x ha, h'⟩

/-- `listModify` preserves a pairwise relation when the modification
preserves the relation in each argument. -/
theorem pairwise_listModify {R : α → α → Prop} (f : α → α) (i : ℕ)
    (hf : ∀ a b, R a b → R (f a) b) (hf' : ∀ a b, R a b → R a (f b))
    {l : List α} (h : l.Pairwise R) : (listModify l i f).Pairwise R := by
  induction l generalizing i with
  | nil => exact h
  | cons x xs ih =>
    rw [List.pairwise_cons] at h
    cases i with
    | zero =>
      show (f x :: xs).Pairwise R
      rw [List.pairwise_cons]
      exact ⟨fun b hb => hf x b (h.1 b hb), h.2⟩
    | succ n =>
      show (x :: listModify xs n f).Pairwise R
      rw [List.pairwise_cons]
      refine ⟨?_, ih n h.2⟩
      intro b hb
      obtain ⟨a, ha, hba⟩ := mem_listModify hb
      rcases hba with rfl | rfl
      · exact h.1 _ ha
      · exact hf' x a (h.1 a ha)

/-- Reading a constant list gives the constant. -/
theorem getD_replicate_eq (n i : ℕ) (d : α) : (List.replicate n d).getD i d = d := by
  induction n generalizing i with
  | zero => cases i <;> rfl
  | succ m ih =>
    cases i with
    | zero => rfl
    | succ k =>
      rw [List.replicate_succ, List.getD_cons_succ]
      exact ih k

/-- Under `InitConn` every adjacency row reads empty. -/
theorem conn_of_initConn {st : NetSt} (h : InitConn st) (i : ℕ) :
    conn st i = [] := by
  unfold conn
  rw [h]
  exact getD_replicate_eq _ _ _

/-- Empty adjacency is symmetric. -/
theorem initConn_symAdj {st : NetSt} (h : InitConn st) : SymAdj st := by
  intro i j
  rw [conn_of_initConn h, conn_of_initConn h]
  simp

/-- Empty adjacency is well formed. -/
theorem initConn_wfAdj {st : NetSt} (h : InitConn st) : WfAdj st := by
  refine ⟨by rw [h, List.length_replicate], ?_⟩
  intro i j hj
  rw [conn_of_initConn h] at hj
  simp at hj

/-- `addWaypoint` preserves the extraction-phase invariant: it either
resolves to an existing id or appends a waypoint whose distance to every
existing waypoint passed the dedup guard. -/
theorem phaseA_append {st : NetSt} (wp : Waypoint)
    (hA : PhaseA st) (hfar : ∀ p ∈ st.points, FarApart p wp) :
    PhaseA { st with points := st.points ++ [wp], connections := st.connections ++ [[]] } := by
  obtain ⟨h1, h2⟩ := hA
  constructor
  · show st.connections ++ [[]] = List.replicate (st.points ++ [wp]).length []
    rw [h1, List.length_append, List.length_singleton, List.replicate_succ']
  · show (st.points ++ [wp]).Pairwise FarApart
    rw [List.pairwise_append]
    refine ⟨h2, List.pairwise_singleton _ _, ?_⟩
    intro p hp q hq
    have hq' := List.mem_singleton.mp hq
    subst hq'
    exact hfar p hp

/-- `addWaypoint` preserves the extraction-phase invariant. -/
theorem addWaypoint_phaseA {st : NetSt} (x y : ℚ) (rr si : Option ℚ)
    (rc im : Bool) (hA : PhaseA st) :
    PhaseA (addWaypoint st x y rr si rc im).1 := by
  unfold addWaypoint
  dsimp only
  cases hf : List.find? (fun p =>
      hypotLtZ (jsRound x - p.x) (jsRound y - p.y) MIN_POINT_DISTANCE) st.points with
  | some p => exact hA
  | none =>
    dsimp only
    refine phaseA_append _ hA ?_
    intro p hp
    have h20 := List.find?_eq_none.mp hf p hp
    simp only [hypotLtZ, MIN_POINT_DISTANCE, Bool.and_eq_true,
      decide_eq_true_eq, not_and, not_lt] at h20
    have h400 := h20 (by norm_num)
    show MIN_POINT_DISTANCE ^ 2 ≤ (p.x - jsRound x) ^ 2 + (p.y - jsRound y) ^ 2
    have e1 : (p.x - jsRound x) ^ 2 = (jsRound x - p.x) ^ 2 := by ring
    have e2 : (p.y - jsRound y) ^ 2 = (jsRound y - p.y) ^ 2 := by ring
    rw [e1, e2]
    simpa [MIN_POINT_DISTANCE] using h400

/-- `addIntermediates` preserves the extraction-phase invariant. -/
theorem addIntermediates_phaseA (roadZones : List Zone) {st : NetSt}
    (point nextPoint : ZonePoint) (i : ℕ) (hA : PhaseA st) :
    PhaseA (addIntermediates roadZones st point nextPoint i) := by
  unfold addIntermediates
  dsimp only
  split
  · refine foldl_inv _ _ _ hA ?_
    intro s' a hP _
    dsimp only
    split
    · exact hP
    · split
      · exact addWaypoint_phaseA _ _ _ _ _ _ hP
      · exact hP
  · exact hA

/-- `createWaypointsForSegment` preserves the extraction-phase invariant. -/
theorem createWaypointsForSegment_phaseA (roadZones : List Zone) {st : NetSt}
    (segment : List ZonePoint) (hA : PhaseA st) :
    PhaseA (createWaypointsForSegment roadZones st segment) := by
  cases segment with
  | nil => exact hA
  | cons z zs =>
    show PhaseA ((List.range (sortPointsForFlow (z :: zs)).length).foldl _ st)
    refine foldl_inv _ _ _ hA ?_
    intro s' a hP _
    dsimp only
    split
    · exact addIntermediates_phaseA _ _ _ _ (addWaypoint_phaseA _ _ _ _ _ _ hP)
    · exact addWaypoint_phaseA _ _ _ _ _ _ hP

/-- A successful `extractRoadCenterline` preserves the extraction-phase
invariant. -/
theorem extractRoadCenterline_phaseA (roadZones : List Zone) (zone : Zone)
    {st st' : NetSt} (fuel : ℕ) (hA : PhaseA st)
    (h : extractRoadCenterline roadZones zone st fuel = .ok st') :
    PhaseA st' := by
  unfold extractRoadCenterline at h
  split at h
  · simp only [Except.ok.injEq] at h
    subst h
    exact hA
  · cases hcs : collectSegments zone.points fuel zone.points.length 0 [] [] with
    | error e =>
      rw [hcs] at h
      exact Except.noConfusion h
    | ok segments =>
      rw [hcs] at h
      simp only [Except.ok.injEq] at h
      subst h
      refine foldl_inv _ _ _ hA ?_
      intro s' seg hP _
      exact createWaypointsForSegment_phaseA _ _ hP

/-- A successful `extractAllZones` preserves the extraction-phase
invariant. -/
theorem extractAllZones_phaseA (allRoadZones : List Zone) (fuel : ℕ) :
    ∀ (zones : List Zone) (st st' : NetSt), PhaseA st →
      extractAllZones allRoadZones fuel zones st = .ok st' → PhaseA st' := by
  intro zones
  induction zones with
  | nil =>
    intro st st' hA h
    simp only [extractAllZones, Except.ok.injEq] at h
    subst h
    exact hA
  | cons z rest ih =>
    intro st st' hA h
    simp only [extractAllZones] at h
    cases hec : extractRoadCenterline allRoadZones z st fuel with
    | error e =>
      rw [hec] at h
      exact Except.noConfusion h
    | ok s1 =>
      rw [hec] at h
      exact ih s1 st' (extractRoadCenterline_phaseA _ _ _ hA hec) h

/-- Membership after the symmetric double update of
`connectNearbyWaypoints`. -/
theorem mem_getD_symAdd (c : List (List ℕ)) (i j : ℕ) (hi : i < c.length)
    (hj : j < c.length) (a b : ℕ) :
    (b ∈ (listModify (listModify c i (fun r => r ++ [j])) j
        (fun r => r ++ [i])).getD a []) ↔
      (b ∈ c.getD a [] ∨ (a = i ∧ b = j) ∨ (a = j ∧ b = i)) := by
  rcases eq_or_ne a j with rfl | haj
  · rw [getD_listModify_self _ _ _ _ (by simpa using hj)]
    rcases eq_or_ne a i with rfl | hai
    · rw [getD_listModify_self _ _ _ _ hi]
      simp only [List.mem_append, List.mem_singleton]
      tauto
    · rw [getD_listModify_ne _ _ _ _ _ (Ne.symm hai)]
      simp only [List.mem_append, List.mem_singleton]
      tauto
  · rw [getD_listModify_ne _ _ _ _ _ (Ne.symm haj)]
    rcases eq_or_ne a i with rfl | hai
    · rw [getD_listModify_self _ _ _ _ hi]
      simp only [List.mem_append, List.mem_singleton]
      tauto
    · rw [getD_listModify_ne _ _ _ _ _ (Ne.symm hai)]
      tauto

/-- Membership after the append-and-wire update of `pushApproach`. -/
theorem mem_getD_pushApproach (c : List (List ℕ)) (I cid : ℕ)
    (hI : I < c.length) (hcid : cid < c.length) (a b : ℕ) :
    (b ∈ (listModify (listModify (c ++ [[I, cid]]) I (fun r => r ++ [c.length]))
        cid (fun r => r ++ [c.length])).getD a []) ↔
      (b ∈ c.getD a [] ∨ (a = I ∧ b = c.length) ∨ (a = cid ∧ b = c.length) ∨
        (a = c.length ∧ (b = I ∨ b = cid))) := by
  rcases eq_or_ne a cid with rfl | hacid
  · rw [getD_listModify_self _ _ _ _
      (by simp only [length_listModify, List.length_append, List.length_singleton]; omega)]
    rcases eq_or_ne a I with rfl | haI
    · rw [getD_listModify_self _ _ _ _
        (by simp only [List.length_append, List.length_singleton]; omega)]
      rw [List.getD_append _ _ _ _ hI]
      have hne : a ≠ c.length := by omega
      simp only [List.mem_append, List.mem_singleton]
      tauto
    · rw [getD_listModify_ne _ _ _ _ _ (Ne.symm haI)]
      rw [List.getD_append _ _ _ _ hcid]
      have hne : a ≠ c.length := by omega
      simp only [List.mem_append, List.mem_singleton]
      tauto
  · rcases eq_or_ne a I with rfl | haI
    · rw [getD_listModify_ne _ _ _ _ _ (Ne.symm hacid)]
      rw [getD_listModify_self _ _ _ _
        (by simp only [List.length_append, List.length_singleton]; omega)]
      rw [List.getD_append _ _ _ _ hI]
      have hne : a ≠ c.length := by omega
      simp only [List.mem_append, List.mem_singleton]
      tauto
    · rcases eq_or_ne a c.length with rfl | han
      · rw [getD_listModify_ne _ _ _ _ _ (show cid ≠ c.length by omega)]
        rw [getD_listModify_ne _ _ _ _ _ (show I ≠ c.length by omega)]
        rw [List.getD_append_right _ _ _ _ (le_refl c.length)]
        rw [List.getD_eq_default _ _ (le_refl c.length)]
        simp only [Nat.sub_self, List.getD_cons_zero]
        have hIne : I ≠ c.length := by omega
        have hcidne : cid ≠ c.length := by omega
        simp only [List.mem_cons, List.not_mem_nil, eq_self_iff_true, true_and,
          false_or, or_false]
        tauto
      · rw [getD_listModify_ne _ _ _ _ _ (Ne.symm hacid)]
        rw [getD_listModify_ne _ _ _ _ _ (Ne.symm haI)]
        by_cases hlt : a < c.length
        · rw [List.getD_append _ _ _ _ hlt]
          tauto
        · rw [List.getD_append_right _ _ _ _ (by omega)]
          rw [List.getD_eq_default _ _
            (by simp only [List.length_singleton]; omega)]
          rw [List.getD_eq_default _ _ (by omega)]
          simp only [List.not_mem_nil]
          tauto

/-- One candidate pair of the pairwise connection loop preserves the
connection-phase invariant (the in-range guards are the `get?` matches). -/
theorem connectPairStep_netInv (roadZones : List Zone) (st : NetSt) (i j : ℕ)
    (hinv : NetInv st) : NetInv (connectPairStep roadZones st i j) := by
  cases hA : st.points.get? i with
  | none =>
    simp only [connectPairStep, hA]
    exact hinv
  | some pointA =>
    cases hB : st.points.get? j with
    | none =>
      simp only [connectPairStep, hA, hB]
      exact hinv
    | some pointB =>
      simp only [connectPairStep, hA, hB]
      split
      · split
        · split
          · exact hinv
          · obtain ⟨hsym, ⟨hlen, hent⟩, hsp⟩ := hinv
            obtain ⟨hi, _⟩ := List.get?_eq_some.mp hA
            obtain ⟨hj, _⟩ := List.get?_eq_some.mp hB
            have hi' : i < st.connections.length := by omega
            have hj' : j < st.connections.length := by omega
            have hmem : ∀ a b : ℕ,
                (b ∈ conn { st with connections := (listModify (listModify st.connections i (· ++ [j])) j (· ++ [i])) } a) ↔
                (b ∈ conn st a ∨ (a = i ∧ b = j) ∨ (a = j ∧ b = i)) := by
              intro a b
              exact mem_getD_symAdd st.connections i j hi' hj' a b
            refine ⟨?_, ⟨?_, ?_⟩, ?_⟩
            · intro a b
              rw [hmem, hmem]
              have h1 := hsym a b
              tauto
            · simp only [length_listModify]
              exact hlen
            · intro a b hb
              rw [hmem] at hb
              rcases hb with hb | ⟨_, rfl⟩ | ⟨_, rfl⟩
              · exact hent a b hb
              · exact hj
              · exact hi
            · exact hsp
        · exact hinv
      · exact hinv

/-- The full pairwise connection pass preserves the invariant. -/
theorem connectPairsPass_netInv (roadZones : List Zone) (st : NetSt)
    (hinv : NetInv st) : NetInv (connectPairsPass roadZones st) := by
  unfold connectPairsPass
  refine foldl_inv _ _ _ hinv ?_
  intro s' i hP _
  refine foldl_inv _ _ _ hP ?_
  intro s'' j hP' _
  exact connectPairStep_netInv roadZones s'' i j hP'

/-- Appending a wired approach waypoint preserves the invariant: the new
adjacency is symmetric by construction and the new waypoint is flagged
`isApproach`, so the spacing property stays vacuous for it. -/
theorem pushApproach_netInv (st : NetSt) (I cid : ℕ) (ix iy dx dy D : ℤ)
    (hI : I < st.points.length) (hcid : cid < st.points.length)
    (hinv : NetInv st) : NetInv (pushApproach st I cid ix iy dx dy D) := by
  obtain ⟨hsym, ⟨hlen, hent⟩, hsp⟩ := hinv
  have hI' : I < st.connections.length := by omega
  have hcid' : cid < st.connections.length := by omega
  have hmem : ∀ a b : ℕ,
      (b ∈ conn (pushApproach st I cid ix iy dx dy D) a) ↔
      (b ∈ conn st a ∨ (a = I ∧ b = st.connections.length) ∨
        (a = cid ∧ b = st.connections.length) ∨
        (a = st.connections.length ∧ (b = I ∨ b = cid))) := by
    intro a b
    show (b ∈ (listModify (listModify (st.connections ++ [[I, cid]]) I
        (· ++ [st.points.length])) cid (· ++ [st.points.length])).getD a []) ↔ _
    rw [show st.points.length = st.connections.length from hlen.symm]
    exact mem_getD_pushApproach st.connections I cid hI' hcid' a b
  refine ⟨?_, ⟨?_, ?_⟩, ?_⟩
  · intro a b
    rw [hmem, hmem]
    have h1 := hsym a b
    tauto
  · show (pushApproach st I cid ix iy dx dy D).connections.length =
      (pushApproach st I cid ix iy dx dy D).points.length
    simp only [pushApproach, length_listModify, List.length_append,
      List.length_singleton]
    omega
  · intro a b hb
    rw [hmem] at hb
    show b < (pushApproach st I cid ix iy dx dy D).points.length
    simp only [pushApproach, List.length_append, List.length_singleton]
    rcases hb with hb | ⟨_, rfl⟩ | ⟨_, rfl⟩ | ⟨_, rfl | rfl⟩
    · have := hent a b hb
      omega
    · omega
    · omega
    · omega
    · omega
  · show NonApproachSpaced (pushApproach st I cid ix iy dx dy D)
    unfold NonApproachSpaced pushApproach
    dsimp only
    rw [List.pairwise_append]
    refine ⟨hsp, List.pairwise_singleton _ _, ?_⟩
    intro p hp q hq hpf hqf
    rcases List.mem_singleton.mp hq with rfl
    exact absurd hqf (by simp)

/-- Flagging a waypoint as intersection preserves the invariant (the flag
touches neither coordinates nor adjacency nor the approach flag). -/
theorem mark_netInv (st : NetSt) (i : ℕ) (hinv : NetInv st) :
    NetInv { st with points := (listModify st.points i (fun p => { p with isIntersection := true })) } := by
  obtain ⟨hsym, ⟨hlen, hent⟩, hsp⟩ := hinv
  refine ⟨hsym, ⟨?_, ?_⟩, ?_⟩
  · show st.connections.length = (listModify st.points i _).length
    rw [length_listModify]
    exact hlen
  · intro a b hb
    show b < (listModify st.points i _).length
    rw [length_listModify]
    exact hent a b hb
  · show (listModify st.points i _).Pairwise _
    exact pairwise_listModify (fun p => { p with isIntersection := true }) i
      (fun a b h => h) (fun a b h => h) hsp

/-- The angle sort of the intersection adjacency lists preserves the
invariant: each row is only permuted. -/
theorem optimize_netInv (st : NetSt) (hinv : NetInv st) :
    NetInv (optimizeIntersectionConnections st) := by
  unfold optimizeIntersectionConnections
  refine foldl_inv _ _ _ hinv ?_
  intro s i hP _
  cases hgi : s.points.get? i with
  | none =>
    simp only [hgi]
    exact hP
  | some point =>
    simp only [hgi]
    split
    · obtain ⟨hsym, ⟨hlen, hent⟩, hsp⟩ := hP
      obtain ⟨hi, _⟩ := List.get?_eq_some.mp hgi
      have hi' : i < s.connections.length := by omega
      have hmem : ∀ a b : ℕ,
          (b ∈ conn { s with connections := (listModify s.connections i (insertionSortBy (angleLE point.x point.y s.points))) } a) ↔
          b ∈ conn s a := by
        intro a b
        rcases eq_or_ne a i with rfl | hne
        · show b ∈ (listModify s.connections a _).getD a [] ↔ _
          rw [getD_listModify_self _ _ _ _ hi']
          exact mem_insertionSortBy _ _ b
        · show b ∈ (listModify s.connections i _).getD a [] ↔ _
          rw [getD_listModify_ne _ _ _ _ _ (Ne.symm hne)]
          exact Iff.rfl
      refine ⟨?_, ⟨?_, ?_⟩, ?_⟩
      · intro a b
        rw [hmem, hmem]
        exact hsym a b
      · simpa only [length_listModify] using hlen
      · intro a b hb
        rw [hmem] at hb
        exact hent a b hb
      · exact hsp
    · exact hP

/-- The approach-point loop of `enhanceIntersection` preserves the
invariant along its success path. -/
theorem enhanceLoop_netInv (roadZones : List Zone) (I : ℕ) (inter : Waypoint) :
    ∀ (fuel k : ℕ) (st st' : NetSt), NetInv st → I < st.points.length →
      enhanceLoop roadZones I inter fuel k st = .ok st' → NetInv st' := by
  intro fuel
  induction fuel with
  | zero =>
    intro k st st' _ _ h
    simp only [enhanceLoop] at h
    exact Except.noConfusion h
  | succ f ih =>
    intro k st st' hinv hI h
    simp only [enhanceLoop] at h
    split at h
    · cases hcp : st.points.get? ((conn st I).getD k 0) with
      | none =>
        rw [hcp] at h
        exact Except.noConfusion h
      | some connectedPoint =>
        rw [hcp] at h
        dsimp only at h
        obtain ⟨hcid, _⟩ := List.get?_eq_some.mp hcp
        split at h
        · split at h
          · split at h
            · exact ih (k + 1) st st' hinv hI h
            · refine ih (k + 1) _ st'
                (pushApproach_netInv st I _ _ _ _ _ _ hI hcid hinv) ?_ h
              show I < (pushApproach st I _ _ _ _ _ _).points.length
              simp only [pushApproach, List.length_append, List.length_singleton]
              omega
          · exact ih (k + 1) st st' hinv hI h
        · exact ih (k + 1) st st' hinv hI h
    · simp only [Except.ok.injEq] at h
      subst h
      exact hinv

/-- `enhanceIntersection` preserves the invariant along its success path. -/
theorem enhanceIntersection_netInv (roadZones : List Zone) (st : NetSt)
    (I fuel : ℕ) (st' : NetSt) (hinv : NetInv st)
    (h : enhanceIntersection roadZones st I fuel = .ok st') : NetInv st' := by
  unfold enhanceIntersection at h
  cases hgI : st.points.get? I with
  | none =>
    rw [hgI] at h
    exact Except.noConfusion h
  | some inter =>
    rw [hgI] at h
    dsimp only at h
    obtain ⟨hI, _⟩ := List.get?_eq_some.mp hgI
    split at h
    · exact enhanceLoop_netInv roadZones I inter fuel 0 st st' hinv hI h
    · simp only [Except.ok.injEq] at h
      subst h
      exact hinv

/-- The intersection-identification loop preserves the invariant along its
success path. -/
theorem identifyLoop_netInv (roadZones : List Zone) :
    ∀ (fuel i : ℕ) (st st' : NetSt), NetInv st →
      identifyLoop roadZones fuel i st = .ok st' → NetInv st' := by
  intro fuel
  induction fuel with
  | zero =>
    intro i st st' _ h
    simp only [identifyLoop] at h
    exact Except.noConfusion h
  | succ f ih =>
    intro i st st' hinv h
    simp only [identifyLoop] at h
    split at h
    · split at h
      · cases henh : enhanceIntersection roadZones
            { st with points := (listModify st.points i (fun p => { p with isIntersection := true })) } i f with
        | error s =>
          rw [henh] at h
          exact Except.noConfusion h
        | ok st2 =>
          rw [henh] at h
          exact ih (i + 1) st2 st'
            (enhanceIntersection_netInv roadZones _ i f st2 (mark_netInv st i hinv) henh) h
      · exact ih (i + 1) st st' hinv h
    · simp only [Except.ok.injEq] at h
      subst h
      exact hinv

/-- `connectNearbyWaypoints` preserves the invariant along its success
path. -/
theorem connectNearbyWaypoints_netInv (roadZones : List Zone) (st : NetSt)
    (fuel : ℕ) (st' : NetSt) (hinv : NetInv st)
    (h : connectNearbyWaypoints roadZones st fuel = .ok st') : NetInv st' := by
  unfold connectNearbyWaypoints at h
  cases hid : identifyLoop roadZones fuel 0 (connectPairsPass roadZones st) with
  | error s =>
    rw [hid] at h
    exact Except.noConfusion h
  | ok s =>
    rw [hid] at h
    simp only [Except.ok.injEq] at h
    subst h
    exact optimize_netInv s
      (identifyLoop_netInv roadZones fuel 0 _ s (connectPairsPass_netInv roadZones st hinv) hid)

/-- `identifyEdgePoints` changes only the `edgePoints` field. -/
theorem identifyEdgePoints_fields (st : NetSt) (w h : ℚ) :
    (identifyEdgePoints st w h).points = st.points ∧
      (identifyEdgePoints st w h).connections = st.connections := by
  unfold identifyEdgePoints
  refine foldl_inv (P := fun (s : NetSt) => s.points = st.points ∧ s.connections = st.connections)
    _ _ _ ⟨rfl, rfl⟩ ?_
  intro s i hP _
  cases hgi : s.points.get? i with
  | none =>
    simp only [hgi]
    exact hP
  | some point =>
    simp only [hgi]
    split
    · exact hP
    · exact hP

/-- `findZoneEntryPoints` changes only the `zoneEntries` field. -/
theorem findZoneEntryPoints_fields (st : NetSt) (res : List Zone) :
    (findZoneEntryPoints st res).points = st.points ∧
      (findZoneEntryPoints st res).connections = st.connections := by
  unfold findZoneEntryPoints
  refine foldl_inv (P := fun (s : NetSt) => s.points = st.points ∧ s.connections = st.connections)
    _ _ _ ⟨rfl, rfl⟩ ?_
  intro s zp hP _
  exact hP

/-- A completed rebuild satisfies the connection-phase invariant. -/
theorem buildBody_netInv (g : GameState) (fuel : ℕ) (st : NetSt)
    (h : buildRoadNetworkBody g fuel = .ok st) : NetInv st := by
  simp only [buildRoadNetworkBody] at h
  cases hex : extractAllZones g.roadZones fuel g.roadZones ⟨[], [], [], []⟩ with
  | error s =>
    rw [hex] at h
    exact Except.noConfusion h
  | ok st1 =>
    rw [hex] at h
    dsimp only at h
    cases hcn : connectNearbyWaypoints g.roadZones st1 fuel with
    | error s =>
      rw [hcn] at h
      exact Except.noConfusion h
    | ok st2 =>
      rw [hcn] at h
      simp only [Except.ok.injEq] at h
      subst h
      have hA : PhaseA st1 :=
        extractAllZones_phaseA g.roadZones fuel g.roadZones ⟨[], [], [], []⟩ st1
          ⟨rfl, List.Pairwise.nil⟩ hex
      have hinv1 : NetInv st1 :=
        ⟨initConn_symAdj hA.1, initConn_wfAdj hA.1,
          hA.2.imp (fun hfar _ _ => hfar)⟩
      have hinv2 : NetInv st2 := connectNearbyWaypoints_netInv g.roadZones st1 fuel st2 hinv1 hcn
      obtain ⟨hp1, hc1⟩ := identifyEdgePoints_fields st2 g.worldWidth g.worldHeight
      obtain ⟨hp2, hc2⟩ :=
        findZoneEntryPoints_fields (identifyEdgePoints st2 g.worldWidth g.worldHeight) g.residentialZones
      obtain ⟨hsym, ⟨hlen, hent⟩, hsp⟩ := hinv2
      have hpts : (findZoneEntryPoints (identifyEdgePoints st2 g.worldWidth g.worldHeight)
          g.residentialZones).points = st2.points := by rw [hp2, hp1]
      have hconn : ∀ a, conn (findZoneEntryPoints (identifyEdgePoints st2 g.worldWidth g.worldHeight)
          g.residentialZones) a = conn st2 a := by
        intro a
        unfold conn
        rw [hc2, hc1]
      refine ⟨?_, ⟨?_, ?_⟩, ?_⟩
      · intro a b
        rw [hconn, hconn]
        exact hsym a b
      · rw [hc2, hc1, hpts]
        exact hlen
      · intro a b hb
        rw [hconn] at hb
        rw [hpts]
        exact hent a b hb
      · show (findZoneEntryPoints (identifyEdgePoints st2 g.worldWidth g.worldHeight)
          g.residentialZones).points.Pairwise _
        rw [hpts]
        exact hsp

/-- C4: after every completed road-network rebuild the adjacency structure
is symmetric: `j ∈ connections[i]` if and only if `i ∈ connections[j]`. -/
theorem roadNetwork_symmetric (g : GameState) (fuel : ℕ) (st : NetSt)
    (h : buildRoadNetworkBody g fuel = .ok st) : SymAdj st :=
  (buildBody_netInv g fuel st h).1

/-- C4 witness: the completed rebuild of the one-circle road patch
`c34Start` yields the network `c34Net`, whose adjacency is symmetric. -/
theorem roadNetwork_symmetric_witness :
    buildRoadNetworkBody c34Start 10 = .ok c34Net ∧ SymAdj c34Net :=
  ⟨by with_unfolding_all rfl,
    roadNetwork_symmetric c34Start 10 c34Net (by with_unfolding_all rfl)⟩

/-- C3 (amended): after every completed road-network rebuild, any two
waypoints of which neither is a synthetic intersection-approach point are
at least `MIN_POINT_DISTANCE` apart; the approach points added by
`enhanceIntersection` are only kept 15 units away from existing waypoints,
so they are exempt. -/
theorem waypoint_spacing_nonapproach (g : GameState) (fuel : ℕ) (st : NetSt)
    (h : buildRoadNetworkBody g fuel = .ok st) : NonApproachSpaced st :=
  (buildBody_netInv g fuel st h).2.2

/-- C3 witness: the completed rebuild of the one-circle road patch
`c34Start` yields `c34Net`, whose (single, non-approach) waypoint set is
spaced. -/
theorem waypoint_spacing_nonapproach_witness :
    buildRoadNetworkBody c34Start 10 = .ok c34Net ∧ NonApproachSpaced c34Net :=
  ⟨by with_unfolding_all rfl,
    waypoint_spacing_nonapproach c34Start 10 c34Net (by with_unfolding_all rfl)⟩

end Agents2
